import Mathlib

/-!
# Verification of the flopy stress-period package codecs

Shallow embedding of the MODFLOW package file loaders/writers of this
repository (`flopy/modflow/mfevt.py`, `mfrch.py`, `mflmt.py`) and proofs of
the specification's claims about them.

Modelling conventions:
* A text stream is a `List Line`.  A `Line.txt` line carries its
  whitespace-split tokens; a token (`Fld`) is either one that Python's
  `int()` accepts (`Fld.num`) or any other word (`Fld.str`).  Array blocks
  and parameter-definition blocks, which are consumed by repository code
  that is not under `src/` (`flopy.utils.util_array.Util2d`,
  `flopy.modflow.mfparbc.ModflowParBc`), are modelled from the spec as
  opaque whole records (`Line.arrRaw`, `Line.arrConst`, `Line.arrExternal`,
  `Line.pdef`).
* Numeric array values are abstract exact numerals: a value carries a
  dtype tag (`fv` for the float dtype, `iv` for the integer dtype) and an
  integer payload; the fixed-width decimal rendering of the external
  format is treated as exact.
* Python object identity is modelled by tagging each freshly decoded
  `GridArray` with an allocation counter `id`; reusing the previous
  step's array keeps the tag, so structural equality of `GridArray`
  values coincides with reference equality of the Python objects.
* `stdout` prints become an explicit message list returned next to the
  result, so that observational independence from the verbosity flag is
  statable.
-/

namespace Flopy

/-- An array element value: a float-dtype or an int-dtype numeral. -/
inductive Val where
  | fv (n : ℤ)
  | iv (n : ℤ)
deriving DecidableEq, Repr

/-- The two array element types of the format (layer-index arrays are
integer, physical quantities are float). -/
inductive Dtype where
  | float
  | int
deriving DecidableEq, Repr

/-- Does a value parse as the requested numeric type? -/
def Val.hasDtype : Val → Dtype → Bool
  | .fv _, .float => true
  | .iv _, .int => true
  | _, _ => false

/-- One whitespace-split token of a text line: either a token accepted by
Python's `int()` or any other word. -/
inductive Fld where
  | num (n : ℤ)
  | str (s : String)
deriving DecidableEq, Repr

/-- Is the token numeric? -/
def Fld.isNum : Fld → Bool
  | .num _ => true
  | .str _ => false

/-- Python `str.lower()` restricted to ASCII, given character-wise (the
format's keywords and parameter names are ASCII). -/
def pyLower (s : String) : String :=
  String.mk (s.data.map Char.toLower)

/-- Python `s[0:10]`, given character-wise. -/
def pyTake10 (s : String) : String :=
  String.mk (s.data.take 10)

/-- `token.lower()`: lowering a numeric token is the identity, lowering a
word lowers it. -/
def Fld.lower : Fld → String
  | .num n => toString n
  | .str s => pyLower s

/-- A named multiplicative parameter: `bc_parms[name]` holds the static
(default) value and the map from instance name to override value.
Modelled from the spec (§3 ParameterEntry, §4.3): the defining module
`flopy/modflow/mfparbc.py` is not under `src/`. -/
structure ParamEntry where
  name : String
  staticVal : Val
  instances : List (String × Val)
deriving DecidableEq, Repr

/-- One record of a package file stream.  Control records and
parameter-name records are token lines; array blocks and
parameter-definition blocks are opaque whole records (their internal
format lives in repository code outside `src/`, modelled from the
spec §4.1/§4.3). -/
inductive Line where
  | comment (s : String)
  | txt (toks : List Fld)
  | arrConst (v : Val)
  | arrExternal (u : ℕ)
  | arrRaw (vals : List Val)
  | pdef (e : ParamEntry)
deriving DecidableEq, Repr

/-- Token view of a line (`line.strip().split()`).  Non-text records get a
fixed abstract token rendering; no claim depends on re-tokenizing them. -/
def Line.toks : Line → List Fld
  | .txt t => t
  | .comment s => [.str ("#" ++ s)]
  | .arrConst _ => [.str "constant"]
  | .arrExternal u => [.str "external", .num (u : ℤ)]
  | .arrRaw _ => [.str "array"]
  | .pdef e => [.str e.name]

/-- A decoded 2-D grid array: the allocation tag models Python object
identity, `data` the row-major cell values. -/
structure GridArray where
  id : ℕ
  data : List Val
deriving DecidableEq, Repr

/-- The error taxonomy of the load path.  Each constructor labels the
source site whose Python exception (IndexError / ValueError / KeyError /
AssertionError) aborts the load there. -/
inductive Err where
  | malformedControlLine
  | badHeader
  | shapeMismatch
  | typeMismatch
  | unresolvedUnit
  | unknownParameter
  | paramCountMismatch
  | parametersNotSupported
deriving DecidableEq, Repr

/-- `f.readline()` at line granularity: at end of file Python returns the
empty string, whose token list is empty. -/
def readline : List Line → Line × List Line
  | [] => (.txt [], [])
  | l :: ls => (l, ls)

/-- Dataset-0 skip loop: `while True: line = f.readline(); if line[0] != '#': break`. -/
def skipComments : List Line → Line × List Line
  | [] => (.txt [], [])
  | .comment _ :: ls => skipComments ls
  | l :: ls => (l, ls)

/-- `int(t[k])`: fails (with the site's error label) when the token is
missing (IndexError) or not numeric (ValueError). -/
def getNum (e : Err) (t : List Fld) (k : ℕ) : Except Err ℤ :=
  match t[k]? with
  | some (.num n) => .ok n
  | _ => .error e

/-- A conditional progress message (`if model.verbose: print(...)`). -/
def logIf (verbose : Bool) (m : String) : List String :=
  if verbose then [m] else []

/-- Dataset-1 keyword test, `"parameter" in line.lower()`, modelled on the
first token of the line (a token accepted by `int()` is never the word
`parameter`, so a numeric dataset-2 line fails the test exactly as in the
source). -/
def isParameterLine (l : Line) : Bool :=
  match (l.toks[0]? : Option Fld) with
  | some (.str s) => pyLower s == "parameter"
  | _ => false

/-- Modelled from the spec (§4.1 Grid Array Codec): `Util2d.load` from
`flopy/utils/util_array.py`, which is not under `src/`.  Consumes one
array record: a constant-fill record, an external-file reference resolved
through the caller's unit registry, or a raw block of `rows*cols` values.
Allocates a fresh object tag for the decoded array. -/
def u2dLoad (registry : ℕ → Option (List Val)) (rows cols : ℕ) (dt : Dtype)
    (nextId : ℕ) (s : List Line) : Except Err (GridArray × ℕ × List Line) :=
  match s with
  | .arrConst v :: rest =>
      if v.hasDtype dt then
        .ok (⟨nextId, List.replicate (rows * cols) v⟩, nextId + 1, rest)
      else .error .typeMismatch
  | .arrExternal u :: rest =>
      match registry u with
      | none => .error .unresolvedUnit
      | some vals =>
          if vals.length = rows * cols then
            if vals.all (fun v => v.hasDtype dt) then
              .ok (⟨nextId, vals⟩, nextId + 1, rest)
            else .error .typeMismatch
          else .error .shapeMismatch
  | .arrRaw vals :: rest =>
      if rows * cols ≤ vals.length then
        if (vals.take (rows * cols)).all (fun v => v.hasDtype dt) then
          .ok (⟨nextId, vals.take (rows * cols)⟩, nextId + 1, rest)
        else .error .typeMismatch
      else .error .shapeMismatch
  | _ => .error .shapeMismatch

/-- The per-quantity control branch shared by every quantity read of the
loaders: a non-negative control code reads one array via the codec, a
negative code keeps the current array object. -/
def quantRead (registry : ℕ → Option (List Val)) (rows cols : ℕ) (dt : Dtype)
    (itmp : ℤ) (cur : Option GridArray) (nid : ℕ) (s : List Line) :
    Except Err (Option GridArray × ℕ × List Line) :=
  if 0 ≤ itmp then
    match u2dLoad registry rows cols dt nid s with
    | .error e => .error e
    | .ok (a, nid', s') => .ok (some a, nid', s')
  else .ok (cur, nid, s)

/-- Association-list lookup used for instance maps. -/
def alookup (k : String) : List (String × Val) → Option Val
  | [] => none
  | (a, b) :: t => if a = k then some b else alookup k t

/-- `pak_parms.bc_parms[pname]`. -/
def lookupParam : List ParamEntry → String → Option ParamEntry
  | [], _ => none
  | e :: t, n => if e.name = n then some e else lookupParam t n

/-- Python dict update `parm_dict[pname] = iname` on an insertion-ordered
association list. -/
def updateAssoc (acc : List (String × String)) (k v : String) :
    List (String × String) :=
  if (acc.map Prod.fst).contains k then
    acc.map (fun p => if p.1 = k then (k, v) else p)
  else acc ++ [(k, v)]

/-- The `for ipar in range(inevtr)` loop of `ModflowEvt.load`: reads one
parameter-name line per iteration, truncates the lowered name to 10
characters, and picks the named instance when the entry's instance map
has it, else the `static` instance (the source's caught
IndexError/KeyError paths also land on `static`).  Running out of lines
(readline returns the empty string, `t[0]` raises) aborts the load. -/
def paramNameLines (tbl : List ParamEntry) :
    ℕ → List Line → List (String × String) →
    Except Err (List (String × String) × List Line)
  | 0, s, acc => .ok (acc, s)
  | n + 1, s, acc =>
    let r := readline s
    let t := r.1.toks
    match t[0]? with
    | none => .error .paramCountMismatch
    | some f0 =>
      let pname := pyTake10 f0.lower
      let iname :=
        match t[1]? with
        | none => "static"
        | some f1 =>
          match lookupParam tbl pname with
          | none => "static"
          | some e =>
            if (alookup f1.lower e.instances).isSome then f1.lower else "static"
      paramNameLines tbl n r.2 (updateAssoc acc pname iname)

/-- Addition of two contributions (same dtype adds payloads; a mixed sum
promotes to the float dtype, as numpy addition would). -/
def Val.add : Val → Val → Val
  | .fv a, .fv b => .fv (a + b)
  | .iv a, .iv b => .iv (a + b)
  | .fv a, .iv b => .fv (a + b)
  | .iv a, .fv b => .fv (a + b)

/-- Resolve the value each named parameter contributes: look the name up
in the table (`UnknownParameter` when absent) and take the chosen
instance, where `static` denotes the entry's default value. -/
def resolveParms (tbl : List ParamEntry) :
    List (String × String) → Except Err (List Val)
  | [] => .ok []
  | pi :: rest =>
    match lookupParam tbl pi.1 with
    | none => .error .unknownParameter
    | some e =>
      match alookup pi.2 (("static", e.staticVal) :: e.instances) with
      | none => .error .unknownParameter
      | some v =>
        match resolveParms tbl rest with
        | .error er => .error er
        | .ok vs => .ok (v :: vs)

/-- Modelled from the spec (§4.3 Parameter Table):
`mfparbc.parameter_bcfill`, not under `src/`.  Resolves every named
parameter of the step through its chosen instance (the `static` instance
is the entry's default value) and additively combines the contributions
into one freshly allocated constant grid. -/
def parameter_bcfill (rows cols : ℕ) (parm_dict : List (String × String))
    (tbl : List ParamEntry) (nid : ℕ) : Except Err (GridArray × ℕ) :=
  match resolveParms tbl parm_dict with
  | .error e => .error e
  | .ok [] => .ok (⟨nid, List.replicate (rows * cols) (Val.fv 0)⟩, nid + 1)
  | .ok (v :: vs) =>
      .ok (⟨nid, List.replicate (rows * cols) (vs.foldl Val.add v)⟩, nid + 1)

/-- The parametric path of the `evtr` quantity: read `inevtr`
parameter-name lines, then materialize their combined array. -/
def evtrParamBranch (tbl : List ParamEntry) (rows cols count nid : ℕ)
    (s : List Line) : Except Err (GridArray × ℕ × List Line) :=
  match paramNameLines tbl count s [] with
  | .error e => .error e
  | .ok (pd, s') =>
    match parameter_bcfill rows cols pd tbl nid with
    | .error e => .error e
    | .ok (a, nid') => .ok (a, nid', s')

/-- The four control codes of one EVT stress-period control record
(`insurf inevtr inexdp inievt`); `inievt` is parsed only under option
code 2, hence optional. -/
structure Codes4 where
  insurf : ℤ
  inevtr : ℤ
  inexdp : ℤ
  inievt : Option ℤ
deriving DecidableEq, Repr

/-- Parse of one EVT control record: `int(t[0])`, `int(t[1])`,
`int(t[2])`, and `int(t[3])` only when `nevtop == 2`
(`ModflowEvt.load`, dataset 5). -/
def parseEvtCtrl (nevtop : ℤ) (t : List Fld) : Except Err Codes4 :=
  match getNum Err.malformedControlLine t 0 with
  | .error e => .error e
  | .ok insurf =>
    match getNum Err.malformedControlLine t 1 with
    | .error e => .error e
    | .ok inevtr =>
      match getNum Err.malformedControlLine t 2 with
      | .error e => .error e
      | .ok inexdp =>
        if nevtop = 2 then
          match getNum Err.malformedControlLine t 3 with
          | .error e => .error e
          | .ok c => .ok ⟨insurf, inevtr, inexdp, some c⟩
        else .ok ⟨insurf, inevtr, inexdp, none⟩

/-- The `evtr` read of one EVT step: with no parameter table the plain
array branch; with parameters active and a non-negative code, the
parameter-name branch. -/
def evtrRead (registry : ℕ → Option (List Val)) (rows cols : ℕ) (npar : ℤ)
    (tbl : List ParamEntry) (inevtr : ℤ) (cur : Option GridArray) (nid : ℕ)
    (s : List Line) : Except Err (Option GridArray × ℕ × List Line) :=
  if npar = 0 then quantRead registry rows cols Dtype.float inevtr cur nid s
  else if 0 ≤ inevtr then
    match evtrParamBranch tbl rows cols inevtr.toNat nid s with
    | .error e => .error e
    | .ok (a, nid', s') => .ok (some a, nid', s')
  else .ok (cur, nid, s)

/-- Loader state of the EVT stress-period loop: the `current_*` variables,
the per-period dictionaries (a list indexed by period; `none` is the
initial Python `[]` placeholder stored when a quantity was never
supplied), the allocation counter, and the unread stream.  `codes`
records the control codes parsed so far; it is write-only ghost state
used to phrase the reuse claims. -/
structure EvtState where
  curSurf : Option GridArray := none
  curEvtr : Option GridArray := none
  curExdp : Option GridArray := none
  curIevt : Option GridArray := none
  surf : List (Option GridArray) := []
  evtr : List (Option GridArray) := []
  exdp : List (Option GridArray) := []
  ievt : List (Option GridArray) := []
  codes : List Codes4 := []
  nextId : ℕ := 0
  stream : List Line
deriving DecidableEq, Repr

/-- One iteration of the EVT `for iper in range(nper)` loop
(`ModflowEvt.load`, lines 253–317): read and parse the control record,
then read `surf`, `evtr`, `exdp` and — only under option code 2 — `ievt`,
storing the current object of each quantity into that period's slot. -/
def evtStep (verbose : Bool) (registry : ℕ → Option (List Val))
    (rows cols : ℕ) (nevtop npar : ℤ) (tbl : List ParamEntry) (iper : ℕ)
    (st : EvtState) : Except Err (EvtState × List String) :=
  let rl := readline st.stream
  match parseEvtCtrl nevtop rl.1.toks with
  | .error e => .error e
  | .ok cd =>
    let m1 := if 0 ≤ cd.insurf then
        logIf verbose ("loading surf stress period " ++ toString (iper + 1))
      else []
    match quantRead registry rows cols Dtype.float cd.insurf st.curSurf
        st.nextId rl.2 with
    | .error e => .error e
    | .ok (curSurf', nid1, s1) =>
      let m2 := if 0 ≤ cd.inevtr ∧ npar = 0 then
          logIf verbose ("loading evtr stress period " ++ toString (iper + 1))
        else []
      match evtrRead registry rows cols npar tbl cd.inevtr st.curEvtr nid1 s1 with
      | .error e => .error e
      | .ok (curEvtr', nid2, s2) =>
        let m3 := if 0 ≤ cd.inexdp then
            logIf verbose ("loading exdp stress period " ++ toString (iper + 1))
          else []
        match quantRead registry rows cols Dtype.float cd.inexdp st.curExdp
            nid2 s2 with
        | .error e => .error e
        | .ok (curExdp', nid3, s3) =>
          match cd.inievt with
          | some c =>
            let m4 := if 0 ≤ c then
                logIf verbose ("loading ievt stress period " ++ toString (iper + 1))
              else []
            match quantRead registry rows cols Dtype.int c st.curIevt nid3 s3 with
            | .error e => .error e
            | .ok (curIevt', nid4, s4) =>
              .ok ({ curSurf := curSurf', curEvtr := curEvtr',
                     curExdp := curExdp', curIevt := curIevt',
                     surf := st.surf ++ [curSurf'], evtr := st.evtr ++ [curEvtr'],
                     exdp := st.exdp ++ [curExdp'], ievt := st.ievt ++ [curIevt'],
                     codes := st.codes ++ [cd], nextId := nid4, stream := s4 },
                   m1 ++ m2 ++ m3 ++ m4)
          | none =>
            .ok ({ curSurf := curSurf', curEvtr := curEvtr',
                   curExdp := curExdp', curIevt := st.curIevt,
                   surf := st.surf ++ [curSurf'], evtr := st.evtr ++ [curEvtr'],
                   exdp := st.exdp ++ [curExdp'], ievt := st.ievt,
                   codes := st.codes ++ [cd], nextId := nid3, stream := s3 },
                 m1 ++ m2 ++ m3)

/-- The EVT stress-period loop, iterated `nper` times, accumulating
progress messages. -/
def evtLoop (verbose : Bool) (registry : ℕ → Option (List Val))
    (rows cols : ℕ) (nevtop npar : ℤ) (tbl : List ParamEntry) :
    ℕ → ℕ → EvtState → List String → Except Err (EvtState × List String)
  | 0, _, st, lg => .ok (st, lg)
  | n + 1, iper, st, lg =>
    match evtStep verbose registry rows cols nevtop npar tbl iper st with
    | .error e => .error e
    | .ok (st', ms) =>
      evtLoop verbose registry rows cols nevtop npar tbl n (iper + 1) st' (lg ++ ms)

/-- The loaded EVT package record: header scalars, the dense per-period
resolved-array dictionaries, and the (ghost) parsed control codes. -/
structure EvtRecord where
  nevtop : ℤ
  ipakcb : ℤ
  surf : List (Option GridArray)
  evtr : List (Option GridArray)
  exdp : List (Option GridArray)
  ievt : List (Option GridArray)
  codes : List Codes4
deriving DecidableEq, Repr

/-- Modelled from the spec (§4.3): `mfparbc.loadarray`, not under `src/`.
Consumes `npar` parameter-definition blocks into the parameter table. -/
def mfparbcLoadarray : ℕ → List Line → Except Err (List ParamEntry × List Line)
  | 0, s => .ok ([], s)
  | n + 1, s =>
    match s with
    | .pdef e :: rest =>
      match mfparbcLoadarray n rest with
      | .error err => .error err
      | .ok (tbl, s') => .ok (e :: tbl, s')
    | _ => .error .badHeader

/-- `ModflowEvt.load`: skip dataset-0 comments, read the optional
dataset-1 parameter line, read dataset-2 (`nevtop ipakcb`), load the
parameter table when present, then run the stress-period loop. -/
def evtLoad (verbose : Bool) (registry : ℕ → Option (List Val))
    (rows cols nper : ℕ) (stream : List Line) :
    Except Err (EvtRecord × List String) :=
  let lg0 := logIf verbose "loading evt package file..."
  let sc := skipComments stream
  match (if isParameterLine sc.1 then
      match getNum Err.badHeader sc.1.toks 1 with
      | .error e => .error e
      | .ok np =>
        let r2 := readline sc.2
        Except.ok (np, r2.1, r2.2,
             if 0 < np then logIf verbose "Parameters detected" else [])
    else Except.ok ((0 : ℤ), sc.1, sc.2, ([] : List String)) :
      Except Err (ℤ × Line × List Line × List String)) with
  | .error e => .error e
  | .ok (npar, line2, s2, lg1) =>
    match getNum Err.badHeader line2.toks 0 with
    | .error e => .error e
    | .ok nevtop =>
      match getNum Err.badHeader line2.toks 1 with
      | .error e => .error e
      | .ok ipakcb =>
        match (if 0 < npar then mfparbcLoadarray npar.toNat s2
               else Except.ok ([], s2)) with
        | .error e => .error e
        | .ok (tbl, s3) =>
          match evtLoop verbose registry rows cols nevtop npar tbl nper 0
              { stream := s3 } (lg0 ++ lg1) with
          | .error e => .error e
          | .ok (stF, lg) =>
            .ok ({ nevtop := nevtop, ipakcb := ipakcb, surf := stF.surf,
                   evtr := stF.evtr, exdp := stF.exdp, ievt := stF.ievt,
                   codes := stF.codes }, lg)

/-- The control codes of one RCH stress-period control record
(`inrech inirch`); `inirch` is parsed only under option code 2. -/
structure Codes2 where
  inrech : ℤ
  inirch : Option ℤ
deriving DecidableEq, Repr

/-- Parse of one RCH control record: `int(t[0])` and, only when
`nrchop == 2`, `int(t[1])` (`ModflowRch.load`, lines 191–195). -/
def parseRchCtrl (nrchop : ℤ) (t : List Fld) : Except Err Codes2 :=
  match getNum Err.malformedControlLine t 0 with
  | .error e => .error e
  | .ok inrech =>
    if nrchop = 2 then
      match getNum Err.malformedControlLine t 1 with
      | .error e => .error e
      | .ok c => .ok ⟨inrech, some c⟩
    else .ok ⟨inrech, none⟩

/-- Loader state of the RCH stress-period loop (the source's
`current_rech`/`current_irch` variables and `rech`/`irch` lists, plus
the allocation counter, the unread stream and the ghost code trace). -/
structure RchState where
  curRech : Option GridArray := none
  curIrch : Option GridArray := none
  rech : List (Option GridArray) := []
  irch : List (Option GridArray) := []
  codes : List Codes2 := []
  nextId : ℕ := 0
  stream : List Line
deriving DecidableEq, Repr

/-- One iteration of the RCH `for iper in xrange(nper)` loop
(`ModflowRch.load`, lines 190–210).  The progress prints of this loader
are unconditional in the source, so the messages carry no verbosity
flag. -/
def rchStep (registry : ℕ → Option (List Val)) (rows cols : ℕ)
    (nrchop : ℤ) (iper : ℕ) (st : RchState) :
    Except Err (RchState × List String) :=
  let rl := readline st.stream
  match parseRchCtrl nrchop rl.1.toks with
  | .error e => .error e
  | .ok cd =>
    let m1 := if 0 ≤ cd.inrech then
        ["loading rech stress period " ++ toString (iper + 1)]
      else []
    match quantRead registry rows cols Dtype.float cd.inrech st.curRech
        st.nextId rl.2 with
    | .error e => .error e
    | .ok (curRech', nid1, s1) =>
      match cd.inirch with
      | some c =>
        let m2 := if 0 ≤ c then
            ["loading irch stress period " ++ toString (iper + 1)]
          else []
        match quantRead registry rows cols Dtype.int c st.curIrch nid1 s1 with
        | .error e => .error e
        | .ok (curIrch', nid2, s2) =>
          .ok ({ curRech := curRech', curIrch := curIrch',
                 rech := st.rech ++ [curRech'], irch := st.irch ++ [curIrch'],
                 codes := st.codes ++ [cd], nextId := nid2, stream := s2 },
               m1 ++ m2)
      | none =>
        .ok ({ curRech := curRech', curIrch := st.curIrch,
               rech := st.rech ++ [curRech'], irch := st.irch,
               codes := st.codes ++ [cd], nextId := nid1, stream := s1 },
             m1)

/-- The RCH stress-period loop. -/
def rchLoop (registry : ℕ → Option (List Val)) (rows cols : ℕ) (nrchop : ℤ) :
    ℕ → ℕ → RchState → List String → Except Err (RchState × List String)
  | 0, _, st, lg => .ok (st, lg)
  | n + 1, iper, st, lg =>
    match rchStep registry rows cols nrchop iper st with
    | .error e => .error e
    | .ok (st', ms) =>
      rchLoop registry rows cols nrchop n (iper + 1) st' (lg ++ ms)

/-- The loaded RCH package record. -/
structure RchRecord where
  nrchop : ℤ
  irchcb : ℤ
  rech : List (Option GridArray)
  irch : List (Option GridArray)
  codes : List Codes2
deriving DecidableEq, Repr

/-- The `irchcb` assignment of `ModflowRch.load` (lines 177–182):
`irchcb = 0; try: if int(t[1]) != 0: irchcb = 53; except: pass` — the
flag becomes 53 for any parseable non-zero second header field, 0 for a
missing, unparseable or zero field; the field's own value is discarded. -/
def rchIrchcb (t : List Fld) : ℤ :=
  match (t[1]? : Option Fld) with
  | some (.num n) => if n ≠ 0 then 53 else 0
  | _ => 0

/-- `ModflowRch.load`: skip dataset-0 comments, reject a parameter count
other than zero (`assert int(raw[1]) == 0`), read `nrchop` and the
cell-by-cell flag, then run the stress-period loop. -/
def rchLoad (registry : ℕ → Option (List Val)) (rows cols nper : ℕ)
    (stream : List Line) : Except Err (RchRecord × List String) :=
  let sc := skipComments stream
  match (if isParameterLine sc.1 then
      match getNum Err.badHeader sc.1.toks 1 with
      | .error e => .error e
      | .ok np =>
        if np ≠ 0 then Except.error Err.parametersNotSupported
        else
          let r2 := readline sc.2
          Except.ok (r2.1, r2.2)
    else Except.ok (sc.1, sc.2) : Except Err (Line × List Line)) with
  | .error e => .error e
  | .ok (line2, s2) =>
    match getNum Err.badHeader line2.toks 0 with
    | .error e => .error e
    | .ok nrchop =>
      let irchcb := rchIrchcb line2.toks
      match rchLoop registry rows cols nrchop nper 0 { stream := s2 } [] with
      | .error e => .error e
      | .ok (stF, lg) =>
        .ok ({ nrchop := nrchop, irchcb := irchcb, rech := stF.rech,
               irch := stF.irch, codes := stF.codes }, lg)

/-- The LMT package record (`ModflowLmt`). -/
structure LmtRecord where
  heading : String
  output_file_name : String
  output_file_unit : ℤ
  output_file_header : String
  output_file_format : String
deriving DecidableEq, Repr

/-- `ModflowLmt.__init__`: every `output_file_*` constructor argument is
accepted but ignored — the stored fields are the literal constants of the
source (lines 10–13 of `mflmt.py`). -/
def lmtInit (output_file_name : String) (output_file_unit : ℤ)
    (output_file_header : String) (output_file_format : String) : LmtRecord :=
  { heading := "# Lmt input file for MODFLOW, generated by Flopy."
    output_file_name := "mt3d_link.ftl"
    output_file_unit := 54
    output_file_header := "extended"
    output_file_format := "unformatted" }

/-- `'%10i' % n`: decimal rendering right-justified in a 10-character
field. -/
def fmtI10 (n : ℤ) : String :=
  let s := toString n
  String.mk (List.replicate (10 - s.length) ' ') ++ s

/-- `ModflowLmt.write_file`: the five output lines. -/
def lmtWriteFile (r : LmtRecord) : List String :=
  [r.heading,
   "OUTPUT_FILE_NAME " ++ r.output_file_name,
   "OUTPUT_FILE_UNIT " ++ fmtI10 r.output_file_unit,
   "OUTPUT_FILE_HEADER " ++ r.output_file_header,
   "OUTPUT_FILE_FORMAT " ++ r.output_file_format]

/-- How one supplied array is encoded on write: as a raw in-file block or
as a reference to a registered external file unit. -/
inductive Enc where
  | raw
  | external (u : ℕ)
deriving DecidableEq, Repr

/-- A sparse per-quantity timeline of a package record: for each stress
period, either a newly supplied array (with its encoding) or reuse of
the previous one. -/
def Timeline := ℕ → Option (GridArray × Enc)

/-- Modelled from the spec (§4.1 encode): the text block emitted for one
array under the chosen encoding. -/
def encodeArr (a : GridArray) : Enc → List Line
  | .raw => [.arrRaw a.data]
  | .external u => [.arrExternal u]

/-- Modelled from the spec (§4.4 write pass): `Transient2d.get_kper_entry`
from `flopy/utils/util_array.py`, not under `src/` — a newly supplied
array yields control code 1 and its encoded block, reuse yields the
sentinel -1 and no block. -/
def kperEntry (tl : Timeline) (n : ℕ) : ℤ × List Line :=
  match tl n with
  | some (a, enc) => (1, encodeArr a enc)
  | none => (-1, [])

/-- The block actually written for a quantity at one step
(`if itmp >= 0: f.write(entry)`). -/
def kperBlock (tl : Timeline) (n : ℕ) : List Line :=
  if 0 ≤ (kperEntry tl n).1 then (kperEntry tl n).2 else []

/-- An EVT package record as held in memory before writing. -/
structure EvtPkg where
  nevtop : ℤ
  ipakcb : ℤ
  surf : Timeline
  evtr : Timeline
  exdp : Timeline
  ievt : Timeline

/-- One stress-period block of `ModflowEvt.write_file` (lines 157–173):
the four control codes with a trailing comment, then the blocks of the
quantities with non-negative codes; `ievt` is written only under option
code 2. -/
def evtWriteStep (p : EvtPkg) (n : ℕ) : List Line :=
  Line.txt ([Fld.num (kperEntry p.surf n).1, Fld.num (kperEntry p.evtr n).1,
             Fld.num (kperEntry p.exdp n).1, Fld.num (kperEntry p.ievt n).1,
             Fld.str "#",
             Fld.str ("Evapotranspiration dataset 5 for stress period " ++
                      toString (n + 1))]) ::
  (kperBlock p.surf n ++ kperBlock p.evtr n ++ kperBlock p.exdp n ++
   (if p.nevtop = 2 then kperBlock p.ievt n else []))

/-- The stress-period blocks for periods `k, k+1, …, k+cnt-1`. -/
def evtWriteFrom (p : EvtPkg) : ℕ → ℕ → List Line
  | _, 0 => []
  | k, c + 1 => evtWriteStep p k ++ evtWriteFrom p (k + 1) c

/-- `ModflowEvt.write_file`: heading comment, dataset-2 header line, then
the per-period blocks. -/
def evtWriteFile (p : EvtPkg) (nper : ℕ) : List Line :=
  Line.comment " EVT package for MODFLOW, generated by Flopy." ::
  Line.txt [Fld.num p.nevtop, Fld.num p.ipakcb] ::
  evtWriteFrom p 0 nper

/-- Modelled from the spec (§6 `resolved_array` accessor, §4.4 reuse
fold): the array a quantity resolves to at step `k` — the most recently
supplied array at or before `k`, or `none` if none was ever supplied. -/
def resolveTl (tl : Timeline) : ℕ → Option GridArray
  | 0 => (tl 0).map Prod.fst
  | k + 1 =>
    match tl (k + 1) with
    | some (a, _) => some a
    | none => resolveTl tl k

/-- Forget the allocation tag: the cell values of a possibly-absent
array. -/
def odata (o : Option GridArray) : Option (List Val) :=
  o.map GridArray.data

/-- All arrays a timeline supplies in the first `nper` periods have the
declared shape and dtype. -/
def tlOK (tl : Timeline) (nper rows cols : ℕ) (dt : Dtype) : Bool :=
  (List.range nper).all fun n =>
    match tl n with
    | some (a, _) =>
        decide (a.data.length = rows * cols) && a.data.all (fun v => v.hasDtype dt)
    | none => true

/-- Every external-file reference a timeline uses in the first `nper`
periods is registered with exactly the referenced data. -/
def tlRegOK (registry : ℕ → Option (List Val)) (tl : Timeline) (nper : ℕ) :
    Bool :=
  (List.range nper).all fun n =>
    match tl n with
    | some (a, .external u) =>
        match registry u with
        | some vs => decide (vs = a.data)
        | none => false
    | _ => true

/-- Loop invariant for the round-trip proof: before step `k` the loader's
current object holds the values the record resolves to at step `k-1`
(before step 0 it is still the initial empty placeholder). -/
def CurMatch (tl : Timeline) (k : ℕ) (cur : Option GridArray) : Prop :=
  match k with
  | 0 => cur = none
  | j + 1 => odata cur = odata (resolveTl tl j)

/-- A freshly appended run of dictionary slots matches the record's
resolved arrays for `cnt` steps starting at step `k`. -/
def SegMatch (tl : Timeline) (k : ℕ) (ns : List (Option GridArray))
    (cnt : ℕ) : Prop :=
  ns.length = cnt ∧
  ∀ j, j < cnt → odata (ns.getD j none) = odata (resolveTl tl (k + j))

/-- The number of numeric tokens of a control line. -/
def numCount (t : List Fld) : ℕ :=
  (t.filter Fld.isNum).length

/-- The number of control codes an EVT control record must supply under
option code `nevtop` (four under option 2, three otherwise). -/
def evtRequired (nevtop : ℤ) : ℕ :=
  if nevtop = 2 then 4 else 3

/-- The number of control codes an RCH control record must supply under
option code `nrchop` (two under option 2, one otherwise). -/
def rchRequired (nrchop : ℤ) : ℕ :=
  if nrchop = 2 then 2 else 1

/-- The layer-index control code as an integer (0, never negative, when
the quantity was gated off and no code was parsed). -/
def Codes4.ievtc (cd : Codes4) : ℤ :=
  cd.inievt.getD 0

/-- The RCH layer-index control code as an integer. -/
def Codes2.irchc (cd : Codes2) : ℤ :=
  cd.inirch.getD 0

/-- Reuse property of a loaded EVT record: wherever a step's control code
for a quantity is negative, that step's dictionary slot holds the very
same array object (same allocation tag, hence reference equality) as the
previous step's slot. -/
def EvtReuse (codes : List Codes4)
    (surf evtr exdp ievt : List (Option GridArray)) : Prop :=
  ∀ k cd, codes[k + 1]? = some cd →
    (cd.insurf < 0 → surf[k + 1]? = surf[k]?) ∧
    (cd.inevtr < 0 → evtr[k + 1]? = evtr[k]?) ∧
    (cd.inexdp < 0 → exdp[k + 1]? = exdp[k]?) ∧
    (∀ c, cd.inievt = some c → c < 0 → ievt[k + 1]? = ievt[k]?)

/-- Loop invariant of the EVT stress-period loop: slot counts track the
step count, the last slot of each quantity aliases the current object,
the layer-index dictionary exists exactly under option code 2, and the
slots built so far satisfy the reuse property. -/
def EvtInv (nevtop : ℤ) (st : EvtState) : Prop :=
  st.surf.length = st.codes.length ∧
  st.evtr.length = st.codes.length ∧
  st.exdp.length = st.codes.length ∧
  (st.codes ≠ [] → st.surf.getLast? = some st.curSurf ∧
     st.evtr.getLast? = some st.curEvtr ∧ st.exdp.getLast? = some st.curExdp) ∧
  (nevtop = 2 → st.ievt.length = st.codes.length ∧
     (st.codes ≠ [] → st.ievt.getLast? = some st.curIevt)) ∧
  (nevtop ≠ 2 → st.ievt = []) ∧
  EvtReuse st.codes st.surf st.evtr st.exdp st.ievt

/-- Reuse property of a loaded RCH record. -/
def RchReuse (codes : List Codes2) (rech irch : List (Option GridArray)) :
    Prop :=
  ∀ k cd, codes[k + 1]? = some cd →
    (cd.inrech < 0 → rech[k + 1]? = rech[k]?) ∧
    (∀ c, cd.inirch = some c → c < 0 → irch[k + 1]? = irch[k]?)

/-- Loop invariant of the RCH stress-period loop. -/
def RchInv (nrchop : ℤ) (st : RchState) : Prop :=
  st.rech.length = st.codes.length ∧
  (st.codes ≠ [] → st.rech.getLast? = some st.curRech) ∧
  (nrchop = 2 → st.irch.length = st.codes.length ∧
     (st.codes ≠ [] → st.irch.getLast? = some st.curIrch)) ∧
  (nrchop ≠ 2 → st.irch = []) ∧
  RchReuse st.codes st.rech st.irch

/-- A concrete two-period EVT package under option code 2 exercising all
four quantities, both dtypes, both encodings and a reuse step. -/
def rtP : EvtPkg :=
  { nevtop := 2, ipakcb := 5,
    surf := fun n => if n = 0 then some (⟨100, [Val.fv 1, Val.fv 2]⟩, Enc.raw)
      else none,
    evtr := fun n =>
      if n = 0 then some (⟨101, [Val.fv 3, Val.fv 4]⟩, Enc.external 7)
      else if n = 1 then some (⟨102, [Val.fv 5, Val.fv 6]⟩, Enc.raw)
      else none,
    exdp := fun n => if n ≤ 1 then some (⟨103, [Val.fv 7, Val.fv 8]⟩, Enc.raw)
      else none,
    ievt := fun n => if n = 0 then some (⟨104, [Val.iv 1, Val.iv 2]⟩, Enc.raw)
      else none }

/-- A unit registry holding the single external file `rtP` references. -/
def rtReg : ℕ → Option (List Val) :=
  fun u => if u = 7 then some [Val.fv 3, Val.fv 4] else none

/-! ## Basic lemmas about the token and branch helpers -/

theorem getNum_ok_iff {e : Err} {t : List Fld} {k : ℕ} {n : ℤ} :
    getNum e t k = .ok n ↔ t[k]? = some (.num n) := by
  unfold getNum
  rcases h : (t[k]? : Option Fld) with _ | f
  · simp
  · cases f <;> simp

theorem getNum_err {e e' : Err} {t : List Fld} {k : ℕ}
    (h : getNum e t k = .error e') : e' = e := by
  unfold getNum at h
  rcases h' : (t[k]? : Option Fld) with _ | f
  · rw [h'] at h
    exact (Except.error.injEq _ _).mp h.symm
  · cases f <;> rw [h'] at h <;> simp at h
    exact h.symm

theorem quantRead_neg (registry : ℕ → Option (List Val)) (rows cols : ℕ)
    (dt : Dtype) {itmp : ℤ} (cur : Option GridArray) (nid : ℕ) (s : List Line)
    (h : itmp < 0) :
    quantRead registry rows cols dt itmp cur nid s = .ok (cur, nid, s) := by
  unfold quantRead
  rw [if_neg (not_le.mpr h)]

/-! ## Claim theorems -/

/-- Claim C9: the LMT constructor stores the fixed values
`mt3d_link.ftl`, 54, `extended`, `unformatted` no matter which
`output_file_*` arguments are passed, so the written file is identical
across all argument choices. -/
theorem lmt_ctor_ignores_args (a a' : String) (b b' : ℤ)
    (c c' : String) (d d' : String) :
    lmtInit a b c d = lmtInit a' b' c' d' ∧
    lmtWriteFile (lmtInit a b c d) = lmtWriteFile (lmtInit a' b' c' d') ∧
    (lmtInit a b c d).output_file_name = "mt3d_link.ftl" ∧
    (lmtInit a b c d).output_file_unit = 54 ∧
    (lmtInit a b c d).output_file_header = "extended" ∧
    (lmtInit a b c d).output_file_format = "unformatted" :=
  ⟨rfl, rfl, rfl, rfl, rfl, rfl⟩

theorem rchIrchcb_cases (t : List Fld) : rchIrchcb t = 0 ∨ rchIrchcb t = 53 := by
  unfold rchIrchcb
  rcases t[1]? with _ | f
  · exact Or.inl rfl
  · cases f with
    | num n =>
      by_cases h : n = 0
      · simp [h]
      · simp [h]
    | str s => exact Or.inl rfl

theorem rchLoad_irchcb_eq {registry : ℕ → Option (List Val)}
    {rows cols nper : ℕ} {stream : List Line} {rec : RchRecord}
    {lg : List String}
    (h : rchLoad registry rows cols nper stream = .ok (rec, lg)) :
    rec.irchcb = 0 ∨ rec.irchcb = 53 := by
  unfold rchLoad at h
  dsimp only at h
  split at h
  · exact absurd h (by simp)
  · split at h
    · exact absurd h (by simp)
    · split at h
      · exact absurd h (by simp)
      · rw [Except.ok.injEq, Prod.mk.injEq] at h
        obtain ⟨h1, _⟩ := h
        rw [← h1]
        exact rchIrchcb_cases _

/-- Claim C10: a successfully loaded RCH record's cell-by-cell budget
flag is exactly 0 or exactly 53: 53 for any parseable non-zero second
header field, 0 for a zero, unparseable or absent field — the field's
own value is never carried into the record. -/
theorem rch_ipakcb_zero_or_53 :
    (∀ (registry : ℕ → Option (List Val)) (rows cols nper : ℕ)
       (stream : List Line) (rec : RchRecord) (lg : List String),
       rchLoad registry rows cols nper stream = .ok (rec, lg) →
       rec.irchcb = 0 ∨ rec.irchcb = 53) ∧
    (∀ (t : List Fld) (n : ℤ), t[1]? = some (Fld.num n) → n ≠ 0 →
       rchIrchcb t = 53) ∧
    (∀ t : List Fld, t[1]? = some (Fld.num 0) → rchIrchcb t = 0) ∧
    (∀ (t : List Fld) (s : String), t[1]? = some (Fld.str s) →
       rchIrchcb t = 0) ∧
    (∀ t : List Fld, t[1]? = none → rchIrchcb t = 0) := by
  refine ⟨fun _ _ _ _ _ _ _ h => rchLoad_irchcb_eq h, ?_, ?_, ?_, ?_⟩
  · intro t n h hn
    unfold rchIrchcb
    rw [h]
    simp [hn]
  · intro t h
    unfold rchIrchcb
    rw [h]
    simp
  · intro t s h
    unfold rchIrchcb
    rw [h]
  · intro t h
    unfold rchIrchcb
    rw [h]

/-- Counterexample to C1 as stated: a one-period EVT file whose step-0
control codes are all negative loads successfully — it does not fail with
`NoPriorArray`; the record stores the empty placeholder for every
quantity at step 0. -/
theorem evt_neg_first_step_counterexample :
    evtLoad false (fun _ => none) 1 1 1
      [Line.comment "h", Line.txt [Fld.num 3, Fld.num 0],
       Line.txt [Fld.num (-1), Fld.num (-1), Fld.num (-1)]] =
    .ok ({ nevtop := 3, ipakcb := 0, surf := [none], evtr := [none],
           exdp := [none], ievt := [], codes := [⟨-1, -1, -1, none⟩] }, []) := by
  rfl

/-- Claim C1 (amended): a negative step-0 control code for an ungated
quantity does not make the load fail; the loader keeps that quantity's
initial empty placeholder and the constructed record carries it for that
step (no `NoPriorArray` error exists in the code). -/
theorem evt_neg_first_step_loads (v : Bool)
    (registry : ℕ → Option (List Val)) (rows cols : ℕ)
    (nevtop ipakcb s e x : ℤ) (c : String)
    (hn : nevtop ≠ 2) (hs : s < 0) (he : e < 0) (hx : x < 0) :
    ∃ lg, evtLoad v registry rows cols 1
      [Line.comment c, Line.txt [Fld.num nevtop, Fld.num ipakcb],
       Line.txt [Fld.num s, Fld.num e, Fld.num x]] =
    .ok ({ nevtop := nevtop, ipakcb := ipakcb, surf := [none], evtr := [none],
           exdp := [none], ievt := [], codes := [⟨s, e, x, none⟩] }, lg) := by
  refine ⟨logIf v "loading evt package file...", ?_⟩
  have hs' := not_le.mpr hs
  have he' := not_le.mpr he
  have hx' := not_le.mpr hx
  simp only [evtLoad, evtLoop, evtStep, evtrRead, parseEvtCtrl, quantRead,
    skipComments, readline, isParameterLine, Line.toks, getNum, logIf,
    List.getElem?_cons_zero, List.getElem?_cons_succ, List.getElem?_nil,
    hn, hs', he', hx', if_neg, if_false, ite_false, List.append_nil,
    List.nil_append]
  simp [hn, hs', he', hx']

/-- Witness for the amended C1 theorem at a concrete input. -/
theorem evt_neg_first_step_loads_witness :
    ∃ lg, evtLoad false (fun _ => none) 1 1 1
      [Line.comment "h", Line.txt [Fld.num 3, Fld.num 0],
       Line.txt [Fld.num (-2), Fld.num (-1), Fld.num (-3)]] =
    .ok ({ nevtop := 3, ipakcb := 0, surf := [none], evtr := [none],
           exdp := [none], ievt := [], codes := [⟨-2, -1, -3, none⟩] }, lg) :=
  evt_neg_first_step_loads false (fun _ => none) 1 1 3 0 (-2) (-1) (-3) "h"
    (by decide) (by decide) (by decide) (by decide)

/-- Claim C5: a parameter-name line naming a parameter present in the
table with an instance name absent from that parameter's instance map
resolves to the `static` instance's value and never fails. -/
theorem evt_param_static_fallback (tbl : List ParamEntry) (rows cols nid : ℕ)
    (toks : List Fld) (rest : List Line) (f0 f1 : Fld) (e : ParamEntry)
    (h0 : toks[0]? = some f0) (h1 : toks[1]? = some f1)
    (hp : lookupParam tbl (pyTake10 f0.lower) = some e)
    (hi : alookup f1.lower e.instances = none) :
    evtrParamBranch tbl rows cols 1 nid (Line.txt toks :: rest) =
      .ok (⟨nid, List.replicate (rows * cols) e.staticVal⟩, nid + 1, rest) := by
  unfold evtrParamBranch paramNameLines paramNameLines
  simp only [readline, Line.toks, h0, h1, hp, hi, Option.isSome_none,
    Bool.false_eq_true, if_false, ite_false]
  unfold updateAssoc
  simp only [List.map_nil, List.contains_nil, Bool.false_eq_true, if_false,
    ite_false, List.nil_append]
  unfold parameter_bcfill resolveParms
  simp only [hp]
  unfold alookup
  simp only [if_pos rfl, List.foldl_nil]
  rfl

/-- Witness for C5 at a concrete table: the requested instance `dry` is
absent, so the `static` value 9 fills the grid. -/
theorem evt_param_static_fallback_witness :
    evtrParamBranch [⟨"evtpar", Val.fv 9, [("wet", Val.fv 11)]⟩] 1 2 1 40
        [Line.txt [Fld.str "EVTPAR", Fld.str "dry"], Line.arrRaw []] =
      .ok (⟨40, List.replicate 2 (Val.fv 9)⟩, 41, [Line.arrRaw []]) :=
  evt_param_static_fallback [⟨"evtpar", Val.fv 9, [("wet", Val.fv 11)]⟩] 1 2 40
    [Fld.str "EVTPAR", Fld.str "dry"] [Line.arrRaw []] (Fld.str "EVTPAR")
    (Fld.str "dry") ⟨"evtpar", Val.fv 9, [("wet", Val.fv 11)]⟩ rfl rfl
    (by decide) (by decide)

theorem paramNameLines_ok_drop (tbl : List ParamEntry) :
    ∀ (c : ℕ) (s : List Line) (acc pd : List (String × String))
      (s' : List Line), paramNameLines tbl c s acc = .ok (pd, s') →
      s' = s.drop c ∧ c ≤ s.length := by
  intro c
  induction c with
  | zero =>
    intro s acc pd s' h
    unfold paramNameLines at h
    rw [Except.ok.injEq, Prod.mk.injEq] at h
    exact ⟨h.2.symm, Nat.zero_le _⟩
  | succ n ih =>
    intro s acc pd s' h
    unfold paramNameLines at h
    cases s with
    | nil => simp [readline, Line.toks] at h
    | cons l ls =>
      dsimp only [readline] at h
      rcases hf : (l.toks[0]? : Option Fld) with _ | f0
      · rw [hf] at h
        simp at h
      · rw [hf] at h
        obtain ⟨h1, h2⟩ := ih ls _ pd s' h
        exact ⟨h1, Nat.succ_le_succ h2⟩

theorem paramNameLines_short (tbl : List ParamEntry) :
    ∀ (c : ℕ) (s : List Line) (acc : List (String × String)),
      s.length < c →
      paramNameLines tbl c s acc = .error .paramCountMismatch := by
  intro c
  induction c with
  | zero => exact fun s acc h => absurd h (Nat.not_lt_zero _)
  | succ n ih =>
    intro s acc h
    unfold paramNameLines
    cases s with
    | nil => rfl
    | cons l ls =>
      dsimp only [readline]
      rcases hf : (l.toks[0]? : Option Fld) with _ | f0
      · rfl
      · exact ih ls _ (Nat.lt_of_succ_lt_succ h)

/-- Claim C6: with a parameter table active and a non-negative `evtr`
control code `c`, the loader reads exactly `c` parameter-name lines
(success leaves the stream advanced by exactly `c` lines), and the step
fails with `ParameterCountMismatch` when fewer than `c` lines remain in
the stream. -/
theorem evt_param_count :
    (∀ (tbl : List ParamEntry) (c : ℕ) (s : List Line)
       (acc pd : List (String × String)) (s' : List Line),
       paramNameLines tbl c s acc = .ok (pd, s') →
       s' = s.drop c ∧ c ≤ s.length) ∧
    (∀ (tbl : List ParamEntry) (c : ℕ) (s : List Line)
       (acc : List (String × String)), s.length < c →
       paramNameLines tbl c s acc = .error .paramCountMismatch) ∧
    (∀ (v : Bool) (registry : ℕ → Option (List Val)) (rows cols : ℕ)
       (npar nevtop : ℤ) (tbl : List ParamEntry) (iper : ℕ) (st : EvtState)
       (toks : List Fld) (rest : List Line) (s c x : ℤ),
       st.stream = Line.txt toks :: rest →
       nevtop ≠ 2 → npar ≠ 0 →
       toks[0]? = some (Fld.num s) → s < 0 →
       toks[1]? = some (Fld.num c) → 0 ≤ c →
       toks[2]? = some (Fld.num x) →
       rest.length < c.toNat →
       evtStep v registry rows cols nevtop npar tbl iper st =
         .error .paramCountMismatch) := by
  refine ⟨fun tbl c => paramNameLines_ok_drop tbl c,
          fun tbl c => paramNameLines_short tbl c, ?_⟩
  intro v registry rows cols npar nevtop tbl iper st toks rest s c x
    hstream hn hnp h0 hs h1 hc h2 hlen
  unfold evtStep
  rw [hstream]
  dsimp only [readline]
  unfold parseEvtCtrl
  simp only [getNum, Line.toks, h0, h1, h2, if_neg hn]
  rw [quantRead_neg registry rows cols Dtype.float st.curSurf st.nextId rest hs]
  unfold evtrRead
  dsimp only
  rw [if_neg hnp, if_pos hc]
  unfold evtrParamBranch
  rw [paramNameLines_short tbl c.toNat rest [] hlen]

/-- Witness for C6: a concrete step requesting 2 parameter names with
only 1 line left fails with `ParameterCountMismatch`; a concrete success
consumes exactly its 2 name lines. -/
theorem evt_param_count_witness :
    (paramNameLines [] 2 [Line.txt [Fld.str "a"], Line.txt [Fld.str "b"],
        Line.arrRaw []] [] = .ok ([("a", "static"), ("b", "static")],
        [Line.arrRaw []]) →
      ([Line.arrRaw []] : List Line) =
        ([Line.txt [Fld.str "a"], Line.txt [Fld.str "b"],
          Line.arrRaw []] : List Line).drop 2 ∧ 2 ≤ 3) ∧
    evtStep false (fun _ => none) 1 1 3 1 [] 0
      { stream := [Line.txt [Fld.num (-1), Fld.num 2, Fld.num (-1)],
                   Line.txt [Fld.str "p"]] } =
      .error .paramCountMismatch :=
  ⟨fun h => evt_param_count.1 [] 2 _ [] _ _ h,
   evt_param_count.2.2 false (fun _ => none) 1 1 1 3 [] 0
     { stream := [Line.txt [Fld.num (-1), Fld.num 2, Fld.num (-1)],
                  Line.txt [Fld.str "p"]] }
     [Fld.num (-1), Fld.num 2, Fld.num (-1)] [Line.txt [Fld.str "p"]]
     (-1) 2 (-1) rfl (by decide) (by decide) rfl (by decide) rfl (by decide)
     rfl (by decide)⟩

theorem numCount_ge : ∀ (r : ℕ) (t : List Fld),
    (∀ k, k < r → ∃ n, t[k]? = some (Fld.num n)) → r ≤ numCount t := by
  intro r
  induction r with
  | zero => exact fun t _ => Nat.zero_le _
  | succ n ih =>
    intro t h
    obtain ⟨n0, h0⟩ := h 0 (Nat.succ_pos n)
    cases t with
    | nil => simp at h0
    | cons f0 t' =>
      rw [List.getElem?_cons_zero, Option.some.injEq] at h0
      have ht' : ∀ k, k < n → ∃ m, t'[k]? = some (Fld.num m) := by
        intro k hk
        obtain ⟨m, hm⟩ := h (k + 1) (Nat.succ_lt_succ hk)
        rw [List.getElem?_cons_succ] at hm
        exact ⟨m, hm⟩
      have : numCount (f0 :: t') = numCount t' + 1 := by
        unfold numCount
        rw [h0]
        simp [Fld.isNum]
      rw [this]
      exact Nat.succ_le_succ (ih t' ht')

theorem parseEvtCtrl_malformed {nevtop : ℤ} {t : List Fld}
    (h : numCount t < evtRequired nevtop) :
    parseEvtCtrl nevtop t = .error .malformedControlLine := by
  unfold parseEvtCtrl
  rcases h0 : getNum Err.malformedControlLine t 0 with e0 | n0
  · rw [getNum_err h0]
  · rcases h1 : getNum Err.malformedControlLine t 1 with e1 | n1
    · rw [getNum_err h1]
    · rcases h2 : getNum Err.malformedControlLine t 2 with e2 | n2
      · rw [getNum_err h2]
      · by_cases h2' : nevtop = 2
        · dsimp only
          rw [if_pos h2']
          rcases h3 : getNum Err.malformedControlLine t 3 with e3 | n3
          · rw [getNum_err h3]
          · exfalso
            have hall : ∀ k, k < 4 → ∃ n, t[k]? = some (Fld.num n) := by
              intro k hk
              match k, hk with
              | 0, _ => exact ⟨n0, getNum_ok_iff.mp h0⟩
              | 1, _ => exact ⟨n1, getNum_ok_iff.mp h1⟩
              | 2, _ => exact ⟨n2, getNum_ok_iff.mp h2⟩
              | 3, _ => exact ⟨n3, getNum_ok_iff.mp h3⟩
            have := numCount_ge 4 t hall
            rw [evtRequired, if_pos h2'] at h
            omega
        · exfalso
          have hall : ∀ k, k < 3 → ∃ n, t[k]? = some (Fld.num n) := by
            intro k hk
            match k, hk with
            | 0, _ => exact ⟨n0, getNum_ok_iff.mp h0⟩
            | 1, _ => exact ⟨n1, getNum_ok_iff.mp h1⟩
            | 2, _ => exact ⟨n2, getNum_ok_iff.mp h2⟩
          have := numCount_ge 3 t hall
          rw [evtRequired, if_neg h2'] at h
          omega

theorem parseRchCtrl_malformed {nrchop : ℤ} {t : List Fld}
    (h : numCount t < rchRequired nrchop) :
    parseRchCtrl nrchop t = .error .malformedControlLine := by
  unfold parseRchCtrl
  rcases h0 : getNum Err.malformedControlLine t 0 with e0 | n0
  · rw [getNum_err h0]
  · by_cases h2' : nrchop = 2
    · dsimp only
      rw [if_pos h2']
      rcases h1 : getNum Err.malformedControlLine t 1 with e1 | n1
      · rw [getNum_err h1]
      · exfalso
        have hall : ∀ k, k < 2 → ∃ n, t[k]? = some (Fld.num n) := by
          intro k hk
          match k, hk with
          | 0, _ => exact ⟨n0, getNum_ok_iff.mp h0⟩
          | 1, _ => exact ⟨n1, getNum_ok_iff.mp h1⟩
        have := numCount_ge 2 t hall
        rw [rchRequired, if_pos h2'] at h
        omega
    · exfalso
      have hall : ∀ k, k < 1 → ∃ n, t[k]? = some (Fld.num n) := by
        intro k hk
        match k, hk with
        | 0, _ => exact ⟨n0, getNum_ok_iff.mp h0⟩
      have := numCount_ge 1 t hall
      rw [rchRequired, if_neg h2'] at h
      omega

theorem evtStep_malformed {v : Bool} {registry : ℕ → Option (List Val)}
    {rows cols : ℕ} {npar nevtop : ℤ} {tbl : List ParamEntry} {iper : ℕ}
    {st : EvtState} {toks : List Fld} {rest : List Line}
    (hstream : st.stream = Line.txt toks :: rest)
    (h : numCount toks < evtRequired nevtop) :
    evtStep v registry rows cols nevtop npar tbl iper st =
      .error .malformedControlLine := by
  unfold evtStep
  rw [hstream]
  dsimp only [readline]
  rw [show (Line.txt toks).toks = toks from rfl, parseEvtCtrl_malformed h]

theorem rchStep_malformed {registry : ℕ → Option (List Val)}
    {rows cols : ℕ} {nrchop : ℤ} {iper : ℕ} {st : RchState}
    {toks : List Fld} {rest : List Line}
    (hstream : st.stream = Line.txt toks :: rest)
    (h : numCount toks < rchRequired nrchop) :
    rchStep registry rows cols nrchop iper st =
      .error .malformedControlLine := by
  unfold rchStep
  rw [hstream]
  dsimp only [readline]
  rw [show (Line.txt toks).toks = toks from rfl, parseRchCtrl_malformed h]

/-- Claim C7: a control line with fewer numeric fields than the active
package mode requires (four for EVT option 2, three for other EVT
options; two for RCH option 2, one otherwise) makes the step — and hence
the whole load — fail with `MalformedControlLine`, so no package record
is constructed. -/
theorem malformed_control_fails :
    (∀ (v : Bool) (registry : ℕ → Option (List Val)) (rows cols : ℕ)
       (npar nevtop : ℤ) (tbl : List ParamEntry) (iper : ℕ) (st : EvtState)
       (toks : List Fld) (rest : List Line),
       st.stream = Line.txt toks :: rest →
       numCount toks < evtRequired nevtop →
       evtStep v registry rows cols nevtop npar tbl iper st =
         .error .malformedControlLine) ∧
    (∀ (registry : ℕ → Option (List Val)) (rows cols : ℕ) (nrchop : ℤ)
       (iper : ℕ) (st : RchState) (toks : List Fld) (rest : List Line),
       st.stream = Line.txt toks :: rest →
       numCount toks < rchRequired nrchop →
       rchStep registry rows cols nrchop iper st =
         .error .malformedControlLine) ∧
    (∀ (v : Bool) (registry : ℕ → Option (List Val)) (rows cols nper : ℕ)
       (nevtop ipakcb : ℤ) (cm : String) (toks : List Fld) (rest : List Line),
       0 < nper → numCount toks < evtRequired nevtop →
       evtLoad v registry rows cols nper
         (Line.comment cm :: Line.txt [Fld.num nevtop, Fld.num ipakcb] ::
          Line.txt toks :: rest) = .error .malformedControlLine) := by
  refine ⟨fun _ _ _ _ _ _ _ _ _ _ _ h1 h2 => evtStep_malformed h1 h2,
          fun _ _ _ _ _ _ _ _ h1 h2 => rchStep_malformed h1 h2, ?_⟩
  intro v registry rows cols nper nevtop ipakcb cm toks rest hnper h
  cases nper with
  | zero => exact absurd hnper (by omega)
  | succ m =>
    unfold evtLoad
    simp only [skipComments, readline, isParameterLine, Line.toks, getNum,
      List.getElem?_cons_zero, List.getElem?_cons_succ, List.getElem?_nil,
      lt_self_iff_false, if_false, ite_false, Bool.false_eq_true]
    unfold evtLoop
    rw [evtStep_malformed rfl h]

/-- Witness for C7: a concrete control line with two numeric fields
under an EVT mode requiring three fails the whole load with
`MalformedControlLine`. -/
theorem malformed_control_fails_witness :
    evtLoad false (fun _ => none) 1 1 1
      [Line.comment "h", Line.txt [Fld.num 3, Fld.num 0],
       Line.txt [Fld.num 1, Fld.num 2, Fld.str "#", Fld.str "c"]] =
      .error .malformedControlLine :=
  malformed_control_fails.2.2 false (fun _ => none) 1 1 1 3 0 "h"
    [Fld.num 1, Fld.num 2, Fld.str "#", Fld.str "c"] [] (by decide) (by decide)

theorem evtrRead_neg (registry : ℕ → Option (List Val)) (rows cols : ℕ)
    (npar : ℤ) (tbl : List ParamEntry) {inevtr : ℤ} (cur : Option GridArray)
    (nid : ℕ) (s : List Line) (h : inevtr < 0) :
    evtrRead registry rows cols npar tbl inevtr cur nid s = .ok (cur, nid, s) := by
  unfold evtrRead
  by_cases hp : npar = 0
  · rw [if_pos hp, quantRead_neg _ _ _ _ _ _ _ h]
  · rw [if_neg hp, if_neg (not_le.mpr h)]

/-- Claim C4: a quantity gated off by the package mode (the layer-index
quantity when the option code is not 2) has its control code consumed
with the control line but triggers no array or parameter read: after the
step the stream is advanced past exactly the control record, whatever —
possibly non-negative — code sits in the gated position and whatever
array data follows. -/
theorem gating_consumes_only_control :
    (∀ (v : Bool) (registry : ℕ → Option (List Val)) (rows cols : ℕ)
       (npar nevtop : ℤ) (tbl : List ParamEntry) (iper : ℕ) (st : EvtState)
       (toks : List Fld) (rest : List Line) (s e x : ℤ),
       st.stream = Line.txt toks :: rest → nevtop ≠ 2 →
       toks[0]? = some (Fld.num s) → s < 0 →
       toks[1]? = some (Fld.num e) → e < 0 →
       toks[2]? = some (Fld.num x) → x < 0 →
       ∃ st' ms, evtStep v registry rows cols nevtop npar tbl iper st =
         .ok (st', ms) ∧ st'.stream = rest) ∧
    (∀ (registry : ℕ → Option (List Val)) (rows cols : ℕ) (nrchop : ℤ)
       (iper : ℕ) (st : RchState) (toks : List Fld) (rest : List Line)
       (r : ℤ),
       st.stream = Line.txt toks :: rest → nrchop ≠ 2 →
       toks[0]? = some (Fld.num r) → r < 0 →
       ∃ st' ms, rchStep registry rows cols nrchop iper st =
         .ok (st', ms) ∧ st'.stream = rest) := by
  constructor
  · intro v registry rows cols npar nevtop tbl iper st toks rest s e x
      hstream hn h0 hs h1 he h2 hx
    unfold evtStep
    rw [hstream]
    dsimp only [readline]
    unfold parseEvtCtrl
    simp only [getNum, Line.toks, h0, h1, h2, if_neg hn]
    rw [quantRead_neg registry rows cols Dtype.float st.curSurf st.nextId rest hs]
    dsimp only
    rw [evtrRead_neg registry rows cols npar tbl st.curEvtr st.nextId rest he]
    dsimp only
    rw [quantRead_neg registry rows cols Dtype.float st.curExdp st.nextId rest hx]
    exact ⟨_, _, rfl, rfl⟩
  · intro registry rows cols nrchop iper st toks rest r hstream hn h0 hr
    unfold rchStep
    rw [hstream]
    dsimp only [readline]
    unfold parseRchCtrl
    simp only [getNum, Line.toks, h0, if_neg hn]
    rw [quantRead_neg registry rows cols Dtype.float st.curRech st.nextId rest hr]
    exact ⟨_, _, rfl, rfl⟩

/-- Witness for C4: with option codes 3, a control line whose gated
position holds the non-negative code 9 (EVT) or 5 (RCH), followed by an
array block, leaves the array block unconsumed. -/
theorem gating_consumes_only_control_witness :
    (∃ st' ms, evtStep false (fun _ => none) 1 1 3 0 [] 0
       { stream := [Line.txt [Fld.num (-1), Fld.num (-1), Fld.num (-1),
                              Fld.num 9],
                    Line.arrRaw [Val.iv 7]] } = .ok (st', ms) ∧
       st'.stream = [Line.arrRaw [Val.iv 7]]) ∧
    (∃ st' ms, rchStep (fun _ => none) 1 1 3 0
       { stream := [Line.txt [Fld.num (-1), Fld.num 5],
                    Line.arrRaw [Val.iv 7]] } = .ok (st', ms) ∧
       st'.stream = [Line.arrRaw [Val.iv 7]]) :=
  ⟨gating_consumes_only_control.1 false (fun _ => none) 1 1 0 3 [] 0 _
     [Fld.num (-1), Fld.num (-1), Fld.num (-1), Fld.num 9]
     [Line.arrRaw [Val.iv 7]] (-1) (-1) (-1) rfl (by decide) rfl (by decide)
     rfl (by decide) rfl (by decide),
   gating_consumes_only_control.2 (fun _ => none) 1 1 3 0 _
     [Fld.num (-1), Fld.num 5] [Line.arrRaw [Val.iv 7]] (-1) rfl (by decide)
     rfl (by decide)⟩

/-- Witness for C10: a concrete header line whose second field is the
non-zero value 7 loads with flag 53 (the 7 itself is not carried). -/
theorem rch_ipakcb_zero_or_53_witness :
    rchIrchcb [Fld.num 3, Fld.num 7] = 53 ∧
    rchIrchcb [Fld.num 3, Fld.num 0] = 0 ∧
    rchIrchcb [Fld.num 3, Fld.str "x"] = 0 ∧
    rchIrchcb [Fld.num 3] = 0 :=
  ⟨rch_ipakcb_zero_or_53.2.1 _ 7 rfl (by decide),
   rch_ipakcb_zero_or_53.2.2.1 _ rfl,
   rch_ipakcb_zero_or_53.2.2.2.1 _ "x" rfl,
   rch_ipakcb_zero_or_53.2.2.2.2 _ rfl⟩

theorem quantRead_ok_neg {registry : ℕ → Option (List Val)} {rows cols : ℕ}
    {dt : Dtype} {itmp : ℤ} {cur cur' : Option GridArray} {nid nid' : ℕ}
    {s s' : List Line}
    (h : quantRead registry rows cols dt itmp cur nid s = .ok (cur', nid', s'))
    (hneg : itmp < 0) : cur' = cur ∧ nid' = nid ∧ s' = s := by
  rw [quantRead_neg registry rows cols dt cur nid s hneg] at h
  rw [Except.ok.injEq, Prod.mk.injEq, Prod.mk.injEq] at h
  exact ⟨h.1.symm, h.2.1.symm, h.2.2.symm⟩

theorem evtrRead_ok_neg {registry : ℕ → Option (List Val)} {rows cols : ℕ}
    {npar : ℤ} {tbl : List ParamEntry} {inevtr : ℤ} {cur cur' : Option GridArray}
    {nid nid' : ℕ} {s s' : List Line}
    (h : evtrRead registry rows cols npar tbl inevtr cur nid s = .ok (cur', nid', s'))
    (hneg : inevtr < 0) : cur' = cur ∧ nid' = nid ∧ s' = s := by
  rw [evtrRead_neg registry rows cols npar tbl cur nid s hneg] at h
  rw [Except.ok.injEq, Prod.mk.injEq, Prod.mk.injEq] at h
  exact ⟨h.1.symm, h.2.1.symm, h.2.2.symm⟩

theorem parseEvtCtrl_ok_inievt {nevtop : ℤ} {t : List Fld} {cd : Codes4}
    (h : parseEvtCtrl nevtop t = .ok cd) : cd.inievt = none ↔ nevtop ≠ 2 := by
  unfold parseEvtCtrl at h
  split at h
  · exact absurd h (by simp)
  · split at h
    · exact absurd h (by simp)
    · split at h
      · exact absurd h (by simp)
      · by_cases h2 : nevtop = 2
        · rw [if_pos h2] at h
          split at h
          · exact absurd h (by simp)
          · rw [Except.ok.injEq] at h
            rw [← h]
            simp [h2]
        · rw [if_neg h2] at h
          rw [Except.ok.injEq] at h
          rw [← h]
          simp [h2]

theorem parseRchCtrl_ok_inirch {nrchop : ℤ} {t : List Fld} {cd : Codes2}
    (h : parseRchCtrl nrchop t = .ok cd) : cd.inirch = none ↔ nrchop ≠ 2 := by
  unfold parseRchCtrl at h
  split at h
  · exact absurd h (by simp)
  · by_cases h2 : nrchop = 2
    · rw [if_pos h2] at h
      split at h
      · exact absurd h (by simp)
      · rw [Except.ok.injEq] at h
        rw [← h]
        simp [h2]
    · rw [if_neg h2] at h
      rw [Except.ok.injEq] at h
      rw [← h]
      simp [h2]

theorem evtStep_ok {v : Bool} {registry : ℕ → Option (List Val)}
    {rows cols : ℕ} {nevtop npar : ℤ} {tbl : List ParamEntry} {iper : ℕ}
    {st st' : EvtState} {ms : List String}
    (h : evtStep v registry rows cols nevtop npar tbl iper st = .ok (st', ms)) :
    st'.surf = st.surf ++ [st'.curSurf] ∧
    st'.evtr = st.evtr ++ [st'.curEvtr] ∧
    st'.exdp = st.exdp ++ [st'.curExdp] ∧
    ∃ cd : Codes4, st'.codes = st.codes ++ [cd] ∧
      (cd.inievt = none ↔ nevtop ≠ 2) ∧
      (cd.insurf < 0 → st'.curSurf = st.curSurf) ∧
      (cd.inevtr < 0 → st'.curEvtr = st.curEvtr) ∧
      (cd.inexdp < 0 → st'.curExdp = st.curExdp) ∧
      (cd.inievt = none → st'.ievt = st.ievt ∧ st'.curIevt = st.curIevt) ∧
      (∀ c, cd.inievt = some c → st'.ievt = st.ievt ++ [st'.curIevt] ∧
        (c < 0 → st'.curIevt = st.curIevt)) := by
  unfold evtStep at h
  dsimp only at h
  rcases hp : parseEvtCtrl nevtop (readline st.stream).1.toks with e | cd
  · rw [hp] at h
    exact absurd h (by simp)
  · rw [hp] at h
    dsimp only at h
    rcases hS : quantRead registry rows cols Dtype.float cd.insurf st.curSurf
        st.nextId (readline st.stream).2 with e | ⟨curSurf', nid1, s1⟩
    · rw [hS] at h
      exact absurd h (by simp)
    · rw [hS] at h
      dsimp only at h
      rcases hE : evtrRead registry rows cols npar tbl cd.inevtr st.curEvtr
          nid1 s1 with e | ⟨curEvtr', nid2, s2⟩
      · rw [hE] at h
        exact absurd h (by simp)
      · rw [hE] at h
        dsimp only at h
        rcases hX : quantRead registry rows cols Dtype.float cd.inexdp
            st.curExdp nid2 s2 with e | ⟨curExdp', nid3, s3⟩
        · rw [hX] at h
          exact absurd h (by simp)
        · rw [hX] at h
          dsimp only at h
          rcases hI : cd.inievt with _ | c
          · rw [hI] at h
            dsimp only at h
            rw [Except.ok.injEq, Prod.mk.injEq] at h
            obtain ⟨hst, -⟩ := h
            subst hst
            refine ⟨rfl, rfl, rfl, cd, rfl, parseEvtCtrl_ok_inievt hp,
              ?_, ?_, ?_, ?_, ?_⟩
            · exact fun hneg => (quantRead_ok_neg hS hneg).1
            · exact fun hneg => (evtrRead_ok_neg hE hneg).1
            · exact fun hneg => (quantRead_ok_neg hX hneg).1
            · exact fun _ => ⟨rfl, rfl⟩
            · intro c hc
              rw [hI] at hc
              exact absurd hc (by simp)
          · rw [hI] at h
            dsimp only at h
            rcases hI2 : quantRead registry rows cols Dtype.int c st.curIevt
                nid3 s3 with e | ⟨curIevt', nid4, s4⟩
            · rw [hI2] at h
              exact absurd h (by simp)
            · rw [hI2] at h
              dsimp only at h
              rw [Except.ok.injEq, Prod.mk.injEq] at h
              obtain ⟨hst, -⟩ := h
              subst hst
              refine ⟨rfl, rfl, rfl, cd, rfl, parseEvtCtrl_ok_inievt hp,
                ?_, ?_, ?_, ?_, ?_⟩
              · exact fun hneg => (quantRead_ok_neg hS hneg).1
              · exact fun hneg => (evtrRead_ok_neg hE hneg).1
              · exact fun hneg => (quantRead_ok_neg hX hneg).1
              · intro hc
                rw [hI] at hc
                exact absurd hc (by simp)
              · intro c' hc
                rw [hI, Option.some.injEq] at hc
                subst hc
                exact ⟨rfl, fun hneg => (quantRead_ok_neg hI2 hneg).1⟩

theorem rchStep_ok {registry : ℕ → Option (List Val)} {rows cols : ℕ}
    {nrchop : ℤ} {iper : ℕ} {st st' : RchState} {ms : List String}
    (h : rchStep registry rows cols nrchop iper st = .ok (st', ms)) :
    st'.rech = st.rech ++ [st'.curRech] ∧
    ∃ cd : Codes2, st'.codes = st.codes ++ [cd] ∧
      (cd.inirch = none ↔ nrchop ≠ 2) ∧
      (cd.inrech < 0 → st'.curRech = st.curRech) ∧
      (cd.inirch = none → st'.irch = st.irch ∧ st'.curIrch = st.curIrch) ∧
      (∀ c, cd.inirch = some c → st'.irch = st.irch ++ [st'.curIrch] ∧
        (c < 0 → st'.curIrch = st.curIrch)) := by
  unfold rchStep at h
  dsimp only at h
  rcases hp : parseRchCtrl nrchop (readline st.stream).1.toks with e | cd
  · rw [hp] at h
    exact absurd h (by simp)
  · rw [hp] at h
    dsimp only at h
    rcases hS : quantRead registry rows cols Dtype.float cd.inrech st.curRech
        st.nextId (readline st.stream).2 with e | ⟨curRech', nid1, s1⟩
    · rw [hS] at h
      exact absurd h (by simp)
    · rw [hS] at h
      dsimp only at h
      rcases hI : cd.inirch with _ | c
      · rw [hI] at h
        dsimp only at h
        rw [Except.ok.injEq, Prod.mk.injEq] at h
        obtain ⟨hst, -⟩ := h
        subst hst
        refine ⟨rfl, cd, rfl, parseRchCtrl_ok_inirch hp, ?_, ?_, ?_⟩
        · exact fun hneg => (quantRead_ok_neg hS hneg).1
        · exact fun _ => ⟨rfl, rfl⟩
        · intro c hc
          rw [hI] at hc
          exact absurd hc (by simp)
      · rw [hI] at h
        dsimp only at h
        rcases hI2 : quantRead registry rows cols Dtype.int c st.curIrch nid1 s1
            with e | ⟨curIrch', nid2, s2⟩
        · rw [hI2] at h
          exact absurd h (by simp)
        · rw [hI2] at h
          dsimp only at h
          rw [Except.ok.injEq, Prod.mk.injEq] at h
          obtain ⟨hst, -⟩ := h
          subst hst
          refine ⟨rfl, cd, rfl, parseRchCtrl_ok_inirch hp, ?_, ?_, ?_⟩
          · exact fun hneg => (quantRead_ok_neg hS hneg).1
          · intro hc
            rw [hI] at hc
            exact absurd hc (by simp)
          · intro c' hc
            rw [hI, Option.some.injEq] at hc
            subst hc
            exact ⟨rfl, fun hneg => (quantRead_ok_neg hI2 hneg).1⟩

theorem reuse_slot_append {κ : Type} (proj : κ → ℤ)
    {codes : List κ} {cd : κ} {l : List (Option GridArray)}
    {cur cur' : Option GridArray}
    (hlen : l.length = codes.length)
    (hlast : codes ≠ [] → l.getLast? = some cur)
    (hneg : proj cd < 0 → cur' = cur)
    (hold : ∀ k cd', codes[k + 1]? = some cd' → proj cd' < 0 →
      l[k + 1]? = l[k]?) :
    ∀ k cd', (codes ++ [cd])[k + 1]? = some cd' → proj cd' < 0 →
      (l ++ [cur'])[k + 1]? = (l ++ [cur'])[k]? := by
  intro k cd' hk hneg'
  rcases Nat.lt_trichotomy (k + 1) codes.length with hlt | heq | hgt
  · rw [List.getElem?_append_left hlt] at hk
    rw [List.getElem?_append_left (hlen ▸ hlt),
        List.getElem?_append_left (by omega : k < l.length)]
    exact hold k cd' hk hneg'
  · have hcd : cd' = cd := by
      have : (codes ++ [cd])[k + 1]? = some cd := by
        rw [heq]
        exact List.getElem?_concat_length codes cd
      rw [this, Option.some.injEq] at hk
      exact hk.symm
    subst hcd
    have hklen : k + 1 = l.length := by omega
    have hc : codes ≠ [] := by
      intro h0
      rw [h0] at heq
      simp at heq
    have e1 : (l ++ [cur'])[k + 1]? = some cur' := by
      rw [hklen]
      exact List.getElem?_concat_length l cur'
    have e2 : (l ++ [cur'])[k]? = l[k]? :=
      List.getElem?_append_left (by omega : k < l.length)
    have e3 : l[k]? = l.getLast? := by
      rw [List.getLast?_eq_getElem?]
      congr 1
      omega
    rw [e1, e2, e3, hlast hc, hneg hneg']
  · have : (codes ++ [cd])[k + 1]? = none := by
      apply List.getElem?_eq_none
      simp only [List.length_append, List.length_singleton]
      omega
    rw [this] at hk
    exact absurd hk (by simp)

theorem evtStep_inv {v : Bool} {registry : ℕ → Option (List Val)}
    {rows cols : ℕ} {nevtop npar : ℤ} {tbl : List ParamEntry} {iper : ℕ}
    {st st' : EvtState} {ms : List String}
    (h : evtStep v registry rows cols nevtop npar tbl iper st = .ok (st', ms))
    (hinv : EvtInv nevtop st) : EvtInv nevtop st' := by
  obtain ⟨hS, hE, hX, cd, hcodes, hiff, hnegS, hnegE, hnegX, hnone, hsome⟩ :=
    evtStep_ok h
  obtain ⟨l1, l2, l3, hlast, hievt2, hievtn, hreuse⟩ := hinv
  have hlast1 : st.codes ≠ [] → st.surf.getLast? = some st.curSurf :=
    fun hne => (hlast hne).1
  have hlast2 : st.codes ≠ [] → st.evtr.getLast? = some st.curEvtr :=
    fun hne => (hlast hne).2.1
  have hlast3 : st.codes ≠ [] → st.exdp.getLast? = some st.curExdp :=
    fun hne => (hlast hne).2.2
  refine ⟨?_, ?_, ?_, ?_, ?_, ?_, ?_⟩
  · rw [hS, hcodes]
    simp [l1]
  · rw [hE, hcodes]
    simp [l2]
  · rw [hX, hcodes]
    simp [l3]
  · intro _
    rw [hS, hE, hX]
    exact ⟨List.getLast?_concat _, List.getLast?_concat _, List.getLast?_concat _⟩
  · intro h2
    have hne : cd.inievt ≠ none := fun hn => (hiff.mp hn) h2
    rcases Option.ne_none_iff_exists'.mp hne with ⟨c, hc⟩
    obtain ⟨hI, -⟩ := hsome c hc
    constructor
    · rw [hI, hcodes]
      simp [(hievt2 h2).1]
    · intro _
      rw [hI]
      exact List.getLast?_concat _
  · intro h2
    rw [(hnone (hiff.mpr h2)).1]
    exact hievtn h2
  · rw [hcodes, hS, hE, hX]
    intro k cd' hk
    refine ⟨?_, ?_, ?_, ?_⟩
    · exact reuse_slot_append Codes4.insurf l1 hlast1 hnegS
        (fun k cd' hk' hn => (hreuse k cd' hk').1 hn) k cd' hk
    · exact reuse_slot_append Codes4.inevtr l2 hlast2 hnegE
        (fun k cd' hk' hn => (hreuse k cd' hk').2.1 hn) k cd' hk
    · exact reuse_slot_append Codes4.inexdp l3 hlast3 hnegX
        (fun k cd' hk' hn => (hreuse k cd' hk').2.2.1 hn) k cd' hk
    · intro c hc hcneg
      by_cases h2 : nevtop = 2
      · have hne : cd.inievt ≠ none := fun hn => (hiff.mp hn) h2
        rcases Option.ne_none_iff_exists'.mp hne with ⟨c0, hc0⟩
        obtain ⟨hI, hIneg⟩ := hsome c0 hc0
        rw [hI]
        refine reuse_slot_append Codes4.ievtc (hievt2 h2).1 (hievt2 h2).2
          ?_ ?_ k cd' hk ?_
        · intro hn
          rw [Codes4.ievtc, hc0] at hn
          exact hIneg hn
        · intro k cd'' hk'' hn
          rcases hI'' : cd''.inievt with _ | c''
          · rw [Codes4.ievtc, hI''] at hn
            exact absurd hn (by decide)
          · rw [Codes4.ievtc, hI''] at hn
            exact (hreuse k cd'' hk'').2.2.2 c'' hI'' hn
        · rw [Codes4.ievtc, hc]
          exact hcneg
      · have : st.ievt = [] := hievtn h2
        rw [(hnone (hiff.mpr h2)).1, this]
        simp

theorem rchStep_inv {registry : ℕ → Option (List Val)} {rows cols : ℕ}
    {nrchop : ℤ} {iper : ℕ} {st st' : RchState} {ms : List String}
    (h : rchStep registry rows cols nrchop iper st = .ok (st', ms))
    (hinv : RchInv nrchop st) : RchInv nrchop st' := by
  obtain ⟨hR, cd, hcodes, hiff, hnegR, hnone, hsome⟩ := rchStep_ok h
  obtain ⟨l1, hlast1, hirch2, hirchn, hreuse⟩ := hinv
  refine ⟨?_, ?_, ?_, ?_, ?_⟩
  · rw [hR, hcodes]
    simp [l1]
  · intro _
    rw [hR]
    exact List.getLast?_concat _
  · intro h2
    have hne : cd.inirch ≠ none := fun hn => (hiff.mp hn) h2
    rcases Option.ne_none_iff_exists'.mp hne with ⟨c, hc⟩
    obtain ⟨hI, -⟩ := hsome c hc
    constructor
    · rw [hI, hcodes]
      simp [(hirch2 h2).1]
    · intro _
      rw [hI]
      exact List.getLast?_concat _
  · intro h2
    rw [(hnone (hiff.mpr h2)).1]
    exact hirchn h2
  · rw [hcodes, hR]
    intro k cd' hk
    refine ⟨?_, ?_⟩
    · exact reuse_slot_append Codes2.inrech l1 hlast1 hnegR
        (fun k cd' hk' hn => (hreuse k cd' hk').1 hn) k cd' hk
    · intro c hc hcneg
      by_cases h2 : nrchop = 2
      · have hne : cd.inirch ≠ none := fun hn => (hiff.mp hn) h2
        rcases Option.ne_none_iff_exists'.mp hne with ⟨c0, hc0⟩
        obtain ⟨hI, hIneg⟩ := hsome c0 hc0
        rw [hI]
        refine reuse_slot_append Codes2.irchc (hirch2 h2).1 (hirch2 h2).2
          ?_ ?_ k cd' hk ?_
        · intro hn
          rw [Codes2.irchc, hc0] at hn
          exact hIneg hn
        · intro k cd'' hk'' hn
          rcases hI'' : cd''.inirch with _ | c''
          · rw [Codes2.irchc, hI''] at hn
            exact absurd hn (by decide)
          · rw [Codes2.irchc, hI''] at hn
            exact (hreuse k cd'' hk'').2 c'' hI'' hn
        · rw [Codes2.irchc, hc]
          exact hcneg
      · have : st.irch = [] := hirchn h2
        rw [(hnone (hiff.mpr h2)).1, this]
        simp

theorem evtLoop_inv (v : Bool) (registry : ℕ → Option (List Val))
    (rows cols : ℕ) (nevtop npar : ℤ) (tbl : List ParamEntry) :
    ∀ (n iper : ℕ) (st : EvtState) (lg : List String) (st' : EvtState)
      (lg' : List String),
    evtLoop v registry rows cols nevtop npar tbl n iper st lg = .ok (st', lg') →
    EvtInv nevtop st → EvtInv nevtop st' := by
  intro n
  induction n with
  | zero =>
    intro iper st lg st' lg' h hinv
    unfold evtLoop at h
    rw [Except.ok.injEq, Prod.mk.injEq] at h
    rw [← h.1]
    exact hinv
  | succ m ih =>
    intro iper st lg st' lg' h hinv
    unfold evtLoop at h
    rcases hs : evtStep v registry rows cols nevtop npar tbl iper st
        with e | ⟨st1, ms⟩
    · rw [hs] at h
      exact absurd h (by simp)
    · rw [hs] at h
      dsimp only at h
      exact ih _ _ _ _ _ h (evtStep_inv hs hinv)

theorem rchLoop_inv (registry : ℕ → Option (List Val)) (rows cols : ℕ)
    (nrchop : ℤ) :
    ∀ (n iper : ℕ) (st : RchState) (lg : List String) (st' : RchState)
      (lg' : List String),
    rchLoop registry rows cols nrchop n iper st lg = .ok (st', lg') →
    RchInv nrchop st → RchInv nrchop st' := by
  intro n
  induction n with
  | zero =>
    intro iper st lg st' lg' h hinv
    unfold rchLoop at h
    rw [Except.ok.injEq, Prod.mk.injEq] at h
    rw [← h.1]
    exact hinv
  | succ m ih =>
    intro iper st lg st' lg' h hinv
    unfold rchLoop at h
    rcases hs : rchStep registry rows cols nrchop iper st with e | ⟨st1, ms⟩
    · rw [hs] at h
      exact absurd h (by simp)
    · rw [hs] at h
      dsimp only at h
      exact ih _ _ _ _ _ h (rchStep_inv hs hinv)

theorem evtInv_init (nevtop : ℤ) (s : List Line) :
    EvtInv nevtop { stream := s } := by
  refine ⟨rfl, rfl, rfl, by simp, fun _ => ⟨rfl, by simp⟩, fun _ => rfl,
    fun k cd hk => ?_⟩
  simp at hk

theorem rchInv_init (nrchop : ℤ) (s : List Line) :
    RchInv nrchop { stream := s } := by
  refine ⟨rfl, by simp, fun _ => ⟨rfl, by simp⟩, fun _ => rfl,
    fun k cd hk => ?_⟩
  simp at hk

theorem evtLoad_reuse {v : Bool} {registry : ℕ → Option (List Val)}
    {rows cols nper : ℕ} {stream : List Line} {rec : EvtRecord}
    {lg : List String}
    (h : evtLoad v registry rows cols nper stream = .ok (rec, lg)) :
    EvtReuse rec.codes rec.surf rec.evtr rec.exdp rec.ievt := by
  unfold evtLoad at h
  dsimp only at h
  split at h
  · exact absurd h (by simp)
  · split at h
    · exact absurd h (by simp)
    · split at h
      · exact absurd h (by simp)
      · split at h
        · exact absurd h (by simp)
        · split at h
          · exact absurd h (by simp)
          case _ stF lgF heq =>
            rw [Except.ok.injEq, Prod.mk.injEq] at h
            obtain ⟨h1, -⟩ := h
            rw [← h1]
            exact (evtLoop_inv _ _ _ _ _ _ _ _ _ _ _ _ _ heq
              (evtInv_init _ _)).2.2.2.2.2.2

theorem rchLoad_reuse {registry : ℕ → Option (List Val)}
    {rows cols nper : ℕ} {stream : List Line} {rec : RchRecord}
    {lg : List String}
    (h : rchLoad registry rows cols nper stream = .ok (rec, lg)) :
    RchReuse rec.codes rec.rech rec.irch := by
  unfold rchLoad at h
  dsimp only at h
  split at h
  · exact absurd h (by simp)
  · split at h
    · exact absurd h (by simp)
    · split at h
      · exact absurd h (by simp)
      case _ stF lgF heq =>
        rw [Except.ok.injEq, Prod.mk.injEq] at h
        obtain ⟨h1, -⟩ := h
        rw [← h1]
        exact (rchLoop_inv _ _ _ _ _ _ _ _ _ _ heq (rchInv_init _ _)).2.2.2.2

/-- Claim C2: in every loaded package record, whenever a step `k > 0` has
a negative control code for a quantity, that step's resolved-array slot
is the very same `GridArray` object (same allocation tag and data, i.e.
reference equality in the source) as step `k-1`'s slot — for all four
EVT quantities and both RCH quantities. -/
theorem reuse_is_reference_equal :
    (∀ (v : Bool) (registry : ℕ → Option (List Val)) (rows cols nper : ℕ)
       (stream : List Line) (rec : EvtRecord) (lg : List String),
       evtLoad v registry rows cols nper stream = .ok (rec, lg) →
       EvtReuse rec.codes rec.surf rec.evtr rec.exdp rec.ievt) ∧
    (∀ (registry : ℕ → Option (List Val)) (rows cols nper : ℕ)
       (stream : List Line) (rec : RchRecord) (lg : List String),
       rchLoad registry rows cols nper stream = .ok (rec, lg) →
       RchReuse rec.codes rec.rech rec.irch) :=
  ⟨fun _ _ _ _ _ _ _ _ h => evtLoad_reuse h,
   fun _ _ _ _ _ _ _ h => rchLoad_reuse h⟩

/-- Witness for C2: a concrete two-period EVT file that supplies `surf`
at step 0 and reuses it at step 1; the two slots are the identical
object. -/
theorem reuse_is_reference_equal_witness :
    ∃ rec lg, evtLoad false (fun _ => none) 1 1 2
      [Line.comment "h", Line.txt [Fld.num 3, Fld.num 0],
       Line.txt [Fld.num 1, Fld.num (-1), Fld.num (-1)],
       Line.arrRaw [Val.fv 5],
       Line.txt [Fld.num (-1), Fld.num (-1), Fld.num (-1)]] = .ok (rec, lg) ∧
      rec.surf[1]? = rec.surf[0]? :=
  ⟨{ nevtop := 3, ipakcb := 0,
     surf := [some ⟨0, [Val.fv 5]⟩, some ⟨0, [Val.fv 5]⟩],
     evtr := [none, none], exdp := [none, none], ievt := [],
     codes := [⟨1, -1, -1, none⟩, ⟨-1, -1, -1, none⟩] }, [], by rfl,
   (reuse_is_reference_equal.1 false (fun _ => none) 1 1 2
     [Line.comment "h", Line.txt [Fld.num 3, Fld.num 0],
      Line.txt [Fld.num 1, Fld.num (-1), Fld.num (-1)],
      Line.arrRaw [Val.fv 5],
      Line.txt [Fld.num (-1), Fld.num (-1), Fld.num (-1)]]
     { nevtop := 3, ipakcb := 0,
       surf := [some ⟨0, [Val.fv 5]⟩, some ⟨0, [Val.fv 5]⟩],
       evtr := [none, none], exdp := [none, none], ievt := [],
       codes := [⟨1, -1, -1, none⟩, ⟨-1, -1, -1, none⟩] } [] (by rfl)
     0 ⟨-1, -1, -1, none⟩ (by rfl)).1 (by decide)⟩

theorem evtStep_core_indep (v v' : Bool) (registry : ℕ → Option (List Val))
    (rows cols : ℕ) (nevtop npar : ℤ) (tbl : List ParamEntry) (iper : ℕ)
    (st : EvtState) :
    (evtStep v registry rows cols nevtop npar tbl iper st).map Prod.fst =
    (evtStep v' registry rows cols nevtop npar tbl iper st).map Prod.fst := by
  unfold evtStep
  dsimp only
  rcases parseEvtCtrl nevtop (readline st.stream).1.toks with e | cd
  · rfl
  · dsimp only
    rcases quantRead registry rows cols Dtype.float cd.insurf st.curSurf
        st.nextId (readline st.stream).2 with e | ⟨curSurf', nid1, s1⟩
    · rfl
    · dsimp only
      rcases evtrRead registry rows cols npar tbl cd.inevtr st.curEvtr nid1 s1
          with e | ⟨curEvtr', nid2, s2⟩
      · rfl
      · dsimp only
        rcases quantRead registry rows cols Dtype.float cd.inexdp st.curExdp
            nid2 s2 with e | ⟨curExdp', nid3, s3⟩
        · rfl
        · dsimp only
          rcases cd.inievt with _ | c
          · rfl
          · dsimp only
            rcases quantRead registry rows cols Dtype.int c st.curIevt nid3 s3
                with e | ⟨curIevt', nid4, s4⟩
            · rfl
            · rfl

theorem evtLoop_core_indep (v v' : Bool) (registry : ℕ → Option (List Val))
    (rows cols : ℕ) (nevtop npar : ℤ) (tbl : List ParamEntry) :
    ∀ (n iper : ℕ) (st : EvtState) (lg lg' : List String),
    (evtLoop v registry rows cols nevtop npar tbl n iper st lg).map Prod.fst =
    (evtLoop v' registry rows cols nevtop npar tbl n iper st lg').map Prod.fst := by
  intro n
  induction n with
  | zero =>
    intro iper st lg lg'
    unfold evtLoop
    rfl
  | succ m ih =>
    intro iper st lg lg'
    unfold evtLoop
    have hstep := evtStep_core_indep v v' registry rows cols nevtop npar tbl
      iper st
    rcases hA : evtStep v registry rows cols nevtop npar tbl iper st
        with e | ⟨st1, ms⟩ <;>
      rcases hB : evtStep v' registry rows cols nevtop npar tbl iper st
        with e' | ⟨st1', ms'⟩ <;>
      rw [hA, hB] at hstep <;> simp only [Except.map] at hstep
    · rw [Except.error.injEq] at hstep
      subst hstep
      rfl
    · exact absurd hstep (by simp)
    · exact absurd hstep (by simp)
    · dsimp only
      rw [Except.ok.injEq] at hstep
      rw [hstep]
      exact ih _ _ _ _

theorem evtLoad_core_indep (v v' : Bool) (registry : ℕ → Option (List Val))
    (rows cols nper : ℕ) (stream : List Line) :
    (evtLoad v registry rows cols nper stream).map Prod.fst =
    (evtLoad v' registry rows cols nper stream).map Prod.fst := by
  unfold evtLoad
  dsimp only
  by_cases hp : isParameterLine (skipComments stream).1 = true
  · rw [if_pos hp, if_pos hp]
    rcases getNum Err.badHeader (skipComments stream).1.toks 1 with e | np
    · rfl
    · dsimp only
      rcases getNum Err.badHeader (readline (skipComments stream).2).1.toks 0
          with e | nevtop
      · rfl
      · dsimp only
        rcases getNum Err.badHeader (readline (skipComments stream).2).1.toks 1
            with e | ipakcb
        · rfl
        · dsimp only
          rcases (if 0 < np then
              mfparbcLoadarray np.toNat (readline (skipComments stream).2).2
            else Except.ok ([], (readline (skipComments stream).2).2) :
              Except Err (List ParamEntry × List Line)) with e | ⟨tbl, s3⟩
          · rfl
          · dsimp only
            have hloop := evtLoop_core_indep v v' registry rows cols nevtop np
              tbl nper 0 { stream := s3 }
              (logIf v "loading evt package file..." ++
                (if 0 < np then logIf v "Parameters detected" else []))
              (logIf v' "loading evt package file..." ++
                (if 0 < np then logIf v' "Parameters detected" else []))
            rcases hA : evtLoop v registry rows cols nevtop np tbl nper 0
                { stream := s3 }
                (logIf v "loading evt package file..." ++
                  (if 0 < np then logIf v "Parameters detected" else []))
              with e | ⟨stF, lgF⟩ <;>
              rcases hB : evtLoop v' registry rows cols nevtop np tbl nper 0
                  { stream := s3 }
                  (logIf v' "loading evt package file..." ++
                    (if 0 < np then logIf v' "Parameters detected" else []))
                with e' | ⟨stF', lgF'⟩ <;>
              rw [hA, hB] at hloop <;> simp only [Except.map] at hloop
            · rw [Except.error.injEq] at hloop
              subst hloop
              rfl
            · exact absurd hloop (by simp)
            · exact absurd hloop (by simp)
            · rw [Except.ok.injEq] at hloop
              rw [hloop]
              rfl
  · rw [if_neg hp, if_neg hp]
    dsimp only
    rcases getNum Err.badHeader (skipComments stream).1.toks 0 with e | nevtop
    · rfl
    · dsimp only
      rcases getNum Err.badHeader (skipComments stream).1.toks 1 with e | ipakcb
      · rfl
      · dsimp only
        rw [if_neg (by decide : ¬ ((0 : ℤ) < 0))]
        dsimp only
        have hloop := evtLoop_core_indep v v' registry rows cols nevtop 0 []
          nper 0 { stream := (skipComments stream).2 }
          (logIf v "loading evt package file..." ++ [])
          (logIf v' "loading evt package file..." ++ [])
        rcases hA : evtLoop v registry rows cols nevtop 0 [] nper 0
            { stream := (skipComments stream).2 }
            (logIf v "loading evt package file..." ++ [])
          with e | ⟨stF, lgF⟩ <;>
          rcases hB : evtLoop v' registry rows cols nevtop 0 [] nper 0
              { stream := (skipComments stream).2 }
              (logIf v' "loading evt package file..." ++ [])
            with e' | ⟨stF', lgF'⟩ <;>
          rw [hA, hB] at hloop <;> simp only [Except.map] at hloop
        · rw [Except.error.injEq] at hloop
          subst hloop
          rfl
        · exact absurd hloop (by simp)
        · exact absurd hloop (by simp)
        · rw [Except.ok.injEq] at hloop
          rw [hloop]
          rfl

/-- Claim C8: the verbosity flag influences only the progress-message
channel — the loaded package record is identical with verbosity on and
off (and `write_file` takes no verbosity input at all, so written output
is trivially unaffected). -/
theorem verbosity_never_affects_record (v v' : Bool)
    (registry : ℕ → Option (List Val)) (rows cols nper : ℕ)
    (stream : List Line) :
    (evtLoad v registry rows cols nper stream).map Prod.fst =
    (evtLoad v' registry rows cols nper stream).map Prod.fst :=
  evtLoad_core_indep v v' registry rows cols nper stream

theorem tlOK_at {tl : Timeline} {nper rows cols : ℕ} {dt : Dtype}
    (h : tlOK tl nper rows cols dt = true) {n : ℕ} (hn : n < nper)
    {a : GridArray} {enc : Enc} (ha : tl n = some (a, enc)) :
    a.data.length = rows * cols ∧
    a.data.all (fun v => v.hasDtype dt) = true := by
  unfold tlOK at h
  rw [List.all_eq_true] at h
  have := h n (List.mem_range.mpr hn)
  rw [ha] at this
  simpa using this

theorem tlRegOK_at {registry : ℕ → Option (List Val)} {tl : Timeline}
    {nper : ℕ} (h : tlRegOK registry tl nper = true) {n : ℕ} (hn : n < nper)
    {a : GridArray} {u : ℕ} (ha : tl n = some (a, .external u)) :
    registry u = some a.data := by
  unfold tlRegOK at h
  rw [List.all_eq_true] at h
  have h2 := h n (List.mem_range.mpr hn)
  rw [ha] at h2
  dsimp only at h2
  rcases hr : registry u with _ | vs
  · rw [hr] at h2
    exact absurd h2 (by simp)
  · rw [hr] at h2
    simp only [decide_eq_true_eq] at h2
    rw [h2]

theorem resolveTl_at_some {tl : Timeline} {k : ℕ} {a : GridArray} {enc : Enc}
    (h : tl k = some (a, enc)) : resolveTl tl k = some a := by
  cases k with
  | zero =>
    unfold resolveTl
    rw [h]
    rfl
  | succ j =>
    unfold resolveTl
    rw [h]

theorem quantRead_write (registry : ℕ → Option (List Val)) (rows cols : ℕ)
    (dt : Dtype) (tl : Timeline) (k : ℕ) (cur : Option GridArray) (nid : ℕ)
    (tail : List Line)
    (hshape : ∀ a enc, tl k = some (a, enc) →
      a.data.length = rows * cols ∧ a.data.all (fun v => v.hasDtype dt) = true)
    (hreg : ∀ a u, tl k = some (a, .external u) → registry u = some a.data)
    (hcur : CurMatch tl k cur) :
    ∃ cur' nid', quantRead registry rows cols dt (kperEntry tl k).1 cur nid
        (kperBlock tl k ++ tail) = .ok (cur', nid', tail) ∧
      odata cur' = odata (resolveTl tl k) := by
  rcases h : tl k with _ | ⟨a, enc⟩
  · have hke : kperEntry tl k = (-1, []) := by
      unfold kperEntry
      rw [h]
    have hkb : kperBlock tl k = [] := by
      unfold kperBlock
      rw [hke]
      simp
    rw [hke, hkb, List.nil_append]
    refine ⟨cur, nid, quantRead_neg registry rows cols dt cur nid tail
      (by decide), ?_⟩
    cases k with
    | zero =>
      unfold CurMatch at hcur
      unfold resolveTl
      rw [h, hcur]
      rfl
    | succ j =>
      unfold CurMatch at hcur
      unfold resolveTl
      rw [h]
      exact hcur
  · obtain ⟨hlen, hdt⟩ := hshape a enc h
    have hke : kperEntry tl k = (1, encodeArr a enc) := by
      unfold kperEntry
      rw [h]
    have hkb : kperBlock tl k = encodeArr a enc := by
      unfold kperBlock
      rw [hke]
      simp
    rw [hke, hkb]
    unfold quantRead
    rw [if_pos (by decide : (0 : ℤ) ≤ 1)]
    cases enc with
    | raw =>
      unfold encodeArr u2dLoad
      rw [List.cons_append, List.nil_append]
      dsimp only
      have htake : a.data.take (rows * cols) = a.data := by
        rw [← hlen]
        exact List.take_length a.data
      rw [if_pos (le_of_eq hlen.symm), htake, if_pos hdt]
      exact ⟨some ⟨nid, a.data⟩, nid + 1, rfl, by
        rw [resolveTl_at_some h]
        rfl⟩
    | external u =>
      unfold encodeArr u2dLoad
      rw [List.cons_append, List.nil_append]
      dsimp only
      rw [hreg a u h]
      dsimp only
      rw [if_pos hlen, if_pos hdt]
      exact ⟨some ⟨nid, a.data⟩, nid + 1, rfl, by
        rw [resolveTl_at_some h]
        rfl⟩

theorem segMatch_nil (tl : Timeline) (k : ℕ) : SegMatch tl k [] 0 :=
  ⟨rfl, fun j hj => absurd hj (Nat.not_lt_zero _)⟩

theorem segMatch_cons {tl : Timeline} {k : ℕ} {cur' : Option GridArray}
    {ns : List (Option GridArray)} {cnt : ℕ}
    (h1 : CurMatch tl (k + 1) cur') (h2 : SegMatch tl (k + 1) ns cnt) :
    SegMatch tl k (cur' :: ns) (cnt + 1) := by
  refine ⟨by simp [h2.1], ?_⟩
  intro j hj
  cases j with
  | zero =>
    unfold CurMatch at h1
    simpa using h1
  | succ i =>
    have : k + (i + 1) = (k + 1) + i := by omega
    rw [this]
    simpa using h2.2 i (by omega)

theorem parseEvtCtrl_write (p : EvtPkg) (k : ℕ) :
    parseEvtCtrl p.nevtop
      [Fld.num (kperEntry p.surf k).1, Fld.num (kperEntry p.evtr k).1,
       Fld.num (kperEntry p.exdp k).1, Fld.num (kperEntry p.ievt k).1,
       Fld.str "#",
       Fld.str ("Evapotranspiration dataset 5 for stress period " ++
                toString (k + 1))] =
    .ok ⟨(kperEntry p.surf k).1, (kperEntry p.evtr k).1,
         (kperEntry p.exdp k).1,
         if p.nevtop = 2 then some (kperEntry p.ievt k).1 else none⟩ := by
  unfold parseEvtCtrl getNum
  simp only [List.getElem?_cons_zero, List.getElem?_cons_succ]
  by_cases h2 : p.nevtop = 2
  · rw [if_pos h2, if_pos h2]
  · rw [if_neg h2, if_neg h2]

theorem evtStep_write (p : EvtPkg) (registry : ℕ → Option (List Val))
    (rows cols k iper : ℕ) (st : EvtState) (tail : List Line)
    (hstream : st.stream = evtWriteStep p k ++ tail)
    (hsS : ∀ a enc, p.surf k = some (a, enc) → a.data.length = rows * cols ∧
      a.data.all (fun v => v.hasDtype Dtype.float) = true)
    (hrS : ∀ a u, p.surf k = some (a, .external u) → registry u = some a.data)
    (hsE : ∀ a enc, p.evtr k = some (a, enc) → a.data.length = rows * cols ∧
      a.data.all (fun v => v.hasDtype Dtype.float) = true)
    (hrE : ∀ a u, p.evtr k = some (a, .external u) → registry u = some a.data)
    (hsX : ∀ a enc, p.exdp k = some (a, enc) → a.data.length = rows * cols ∧
      a.data.all (fun v => v.hasDtype Dtype.float) = true)
    (hrX : ∀ a u, p.exdp k = some (a, .external u) → registry u = some a.data)
    (hsI : p.nevtop = 2 → ∀ a enc, p.ievt k = some (a, enc) →
      a.data.length = rows * cols ∧
      a.data.all (fun v => v.hasDtype Dtype.int) = true)
    (hrI : p.nevtop = 2 → ∀ a u, p.ievt k = some (a, .external u) →
      registry u = some a.data)
    (hcS : CurMatch p.surf k st.curSurf)
    (hcE : CurMatch p.evtr k st.curEvtr)
    (hcX : CurMatch p.exdp k st.curExdp)
    (hcI : p.nevtop = 2 → CurMatch p.ievt k st.curIevt) :
    ∃ st' ms, evtStep false registry rows cols p.nevtop 0 [] iper st =
      .ok (st', ms) ∧
      st'.stream = tail ∧
      st'.surf = st.surf ++ [st'.curSurf] ∧
      CurMatch p.surf (k + 1) st'.curSurf ∧
      st'.evtr = st.evtr ++ [st'.curEvtr] ∧
      CurMatch p.evtr (k + 1) st'.curEvtr ∧
      st'.exdp = st.exdp ++ [st'.curExdp] ∧
      CurMatch p.exdp (k + 1) st'.curExdp ∧
      (p.nevtop = 2 → st'.ievt = st.ievt ++ [st'.curIevt] ∧
        CurMatch p.ievt (k + 1) st'.curIevt) ∧
      (p.nevtop ≠ 2 → st'.ievt = st.ievt ∧ st'.curIevt = st.curIevt) := by
  obtain ⟨curS', nidS, hS, hcS'⟩ :=
    quantRead_write registry rows cols Dtype.float p.surf k st.curSurf
      st.nextId
      (kperBlock p.evtr k ++ (kperBlock p.exdp k ++
        ((if p.nevtop = 2 then kperBlock p.ievt k else []) ++ tail)))
      hsS hrS hcS
  obtain ⟨curE', nidE, hE, hcE'⟩ :=
    quantRead_write registry rows cols Dtype.float p.evtr k st.curEvtr nidS
      (kperBlock p.exdp k ++
        ((if p.nevtop = 2 then kperBlock p.ievt k else []) ++ tail))
      hsE hrE hcE
  obtain ⟨curX', nidX, hX, hcX'⟩ :=
    quantRead_write registry rows cols Dtype.float p.exdp k st.curExdp nidE
      ((if p.nevtop = 2 then kperBlock p.ievt k else []) ++ tail)
      hsX hrX hcX
  unfold evtStep
  rw [hstream]
  unfold evtWriteStep
  rw [List.cons_append]
  dsimp only [readline, Line.toks]
  rw [parseEvtCtrl_write p k]
  dsimp only
  rw [show ((kperBlock p.surf k ++ kperBlock p.evtr k ++ kperBlock p.exdp k ++
      (if p.nevtop = 2 then kperBlock p.ievt k else [])) ++ tail) =
    (kperBlock p.surf k ++ (kperBlock p.evtr k ++ (kperBlock p.exdp k ++
      ((if p.nevtop = 2 then kperBlock p.ievt k else []) ++ tail))))
    from by simp [List.append_assoc]]
  rw [hS]
  dsimp only
  rw [show evtrRead registry rows cols 0 [] (kperEntry p.evtr k).1 st.curEvtr
      nidS (kperBlock p.evtr k ++ (kperBlock p.exdp k ++
        ((if p.nevtop = 2 then kperBlock p.ievt k else []) ++ tail))) =
    quantRead registry rows cols Dtype.float (kperEntry p.evtr k).1 st.curEvtr
      nidS (kperBlock p.evtr k ++ (kperBlock p.exdp k ++
        ((if p.nevtop = 2 then kperBlock p.ievt k else []) ++ tail)))
    from by unfold evtrRead; rw [if_pos rfl]]
  rw [hE]
  dsimp only
  rw [hX]
  dsimp only
  by_cases h2 : p.nevtop = 2
  · rw [if_pos h2]
    dsimp only
    rw [if_pos h2] at hX ⊢
    obtain ⟨curI', nidI, hI, hcI'⟩ :=
      quantRead_write registry rows cols Dtype.int p.ievt k st.curIevt nidX
        tail (hsI h2) (hrI h2)
        (hcI h2)
    rw [hI]
    dsimp only
    refine ⟨_, _, rfl, rfl, rfl, hcS', rfl, hcE', rfl, hcX',
      fun _ => ⟨rfl, hcI'⟩, fun hn => absurd h2 hn⟩
  · rw [if_neg h2]
    dsimp only
    rw [if_neg h2, List.nil_append] at hX ⊢
    refine ⟨_, _, rfl, rfl, rfl, hcS', rfl, hcE', rfl, hcX',
      fun h2' => absurd h2' h2, fun _ => ⟨rfl, rfl⟩⟩

theorem evtLoop_write (p : EvtPkg) (registry : ℕ → Option (List Val))
    (rows cols nper : ℕ)
    (hOKs : tlOK p.surf nper rows cols Dtype.float = true)
    (hOKe : tlOK p.evtr nper rows cols Dtype.float = true)
    (hOKx : tlOK p.exdp nper rows cols Dtype.float = true)
    (hOKi : p.nevtop = 2 → tlOK p.ievt nper rows cols Dtype.int = true)
    (hRs : tlRegOK registry p.surf nper = true)
    (hRe : tlRegOK registry p.evtr nper = true)
    (hRx : tlRegOK registry p.exdp nper = true)
    (hRi : p.nevtop = 2 → tlRegOK registry p.ievt nper = true) :
    ∀ (cnt k iper : ℕ) (st : EvtState) (lg : List String),
      k + cnt ≤ nper →
      st.stream = evtWriteFrom p k cnt →
      CurMatch p.surf k st.curSurf →
      CurMatch p.evtr k st.curEvtr →
      CurMatch p.exdp k st.curExdp →
      (p.nevtop = 2 → CurMatch p.ievt k st.curIevt) →
      ∃ stF lgF, evtLoop false registry rows cols p.nevtop 0 [] cnt iper st lg =
        .ok (stF, lgF) ∧
        stF.stream = [] ∧
        (∃ ns, stF.surf = st.surf ++ ns ∧ SegMatch p.surf k ns cnt) ∧
        (∃ ns, stF.evtr = st.evtr ++ ns ∧ SegMatch p.evtr k ns cnt) ∧
        (∃ ns, stF.exdp = st.exdp ++ ns ∧ SegMatch p.exdp k ns cnt) ∧
        (p.nevtop = 2 → ∃ ns, stF.ievt = st.ievt ++ ns ∧
          SegMatch p.ievt k ns cnt) ∧
        (p.nevtop ≠ 2 → stF.ievt = st.ievt) := by
  intro cnt
  induction cnt with
  | zero =>
    intro k iper st lg hle hstream hcS hcE hcX hcI
    unfold evtLoop
    refine ⟨st, lg, rfl, ?_, ⟨[], by simp, segMatch_nil _ _⟩,
      ⟨[], by simp, segMatch_nil _ _⟩, ⟨[], by simp, segMatch_nil _ _⟩,
      fun _ => ⟨[], by simp, segMatch_nil _ _⟩, fun _ => rfl⟩
    rw [hstream]
    rfl
  | succ m ih =>
    intro k iper st lg hle hstream hcS hcE hcX hcI
    have hk : k < nper := by omega
    obtain ⟨st', ms, hstep, hstream', hS, hcS', hE, hcE', hX, hcX', hI2, hIn⟩ :=
      evtStep_write p registry rows cols k iper st (evtWriteFrom p (k + 1) m)
        (by rw [hstream]; rfl)
        (fun a enc ha => tlOK_at hOKs hk ha)
        (fun a u ha => tlRegOK_at hRs hk ha)
        (fun a enc ha => tlOK_at hOKe hk ha)
        (fun a u ha => tlRegOK_at hRe hk ha)
        (fun a enc ha => tlOK_at hOKx hk ha)
        (fun a u ha => tlRegOK_at hRx hk ha)
        (fun h2 a enc ha => tlOK_at (hOKi h2) hk ha)
        (fun h2 a u ha => tlRegOK_at (hRi h2) hk ha)
        hcS hcE hcX hcI
    unfold evtLoop
    rw [hstep]
    dsimp only
    obtain ⟨stF, lgF, hloop, hsF, ⟨nsS, haS, hmS⟩, ⟨nsE, haE, hmE⟩,
        ⟨nsX, haX, hmX⟩, hI2', hIn'⟩ :=
      ih (k + 1) (iper + 1) st' (lg ++ ms) (by omega) hstream' hcS' hcE' hcX'
        (fun h2 => (hI2 h2).2)
    refine ⟨stF, lgF, hloop, hsF, ?_, ?_, ?_, ?_, ?_⟩
    · exact ⟨st'.curSurf :: nsS, by rw [haS, hS]; simp,
        segMatch_cons hcS' hmS⟩
    · exact ⟨st'.curEvtr :: nsE, by rw [haE, hE]; simp,
        segMatch_cons hcE' hmE⟩
    · exact ⟨st'.curExdp :: nsX, by rw [haX, hX]; simp,
        segMatch_cons hcX' hmX⟩
    · intro h2
      obtain ⟨nsI, haI, hmI⟩ := hI2' h2
      exact ⟨st'.curIevt :: nsI, by rw [haI, (hI2 h2).1]; simp,
        segMatch_cons (hI2 h2).2 hmI⟩
    · intro h2
      rw [hIn' h2, (hIn h2).1]

/-- Claim C3: writing an EVT package record and loading the produced text
yields a record whose resolved array has, at every quantity and step, the
same cell values as the original record's resolved array — for both
float-dtype and int-dtype quantities and for both raw-array and
external-file-reference encodings (the layer-index quantity participates
exactly when the package mode reads it, i.e. under option code 2). -/
theorem evt_round_trip (p : EvtPkg) (registry : ℕ → Option (List Val))
    (rows cols nper : ℕ)
    (hOKs : tlOK p.surf nper rows cols Dtype.float = true)
    (hOKe : tlOK p.evtr nper rows cols Dtype.float = true)
    (hOKx : tlOK p.exdp nper rows cols Dtype.float = true)
    (hOKi : p.nevtop = 2 → tlOK p.ievt nper rows cols Dtype.int = true)
    (hRs : tlRegOK registry p.surf nper = true)
    (hRe : tlRegOK registry p.evtr nper = true)
    (hRx : tlRegOK registry p.exdp nper = true)
    (hRi : p.nevtop = 2 → tlRegOK registry p.ievt nper = true) :
    ∃ rec lg, evtLoad false registry rows cols nper (evtWriteFile p nper) =
      .ok (rec, lg) ∧
      rec.nevtop = p.nevtop ∧ rec.ipakcb = p.ipakcb ∧
      rec.surf.length = nper ∧
      (∀ k, k < nper →
        odata (rec.surf.getD k none) = odata (resolveTl p.surf k)) ∧
      rec.evtr.length = nper ∧
      (∀ k, k < nper →
        odata (rec.evtr.getD k none) = odata (resolveTl p.evtr k)) ∧
      rec.exdp.length = nper ∧
      (∀ k, k < nper →
        odata (rec.exdp.getD k none) = odata (resolveTl p.exdp k)) ∧
      (p.nevtop = 2 → rec.ievt.length = nper ∧
        (∀ k, k < nper →
          odata (rec.ievt.getD k none) = odata (resolveTl p.ievt k))) ∧
      (p.nevtop ≠ 2 → rec.ievt = []) := by
  obtain ⟨stF, lgF, hloop, hsF, ⟨nsS, haS, hmS⟩, ⟨nsE, haE, hmE⟩,
      ⟨nsX, haX, hmX⟩, hI2, hIn⟩ :=
    evtLoop_write p registry rows cols nper hOKs hOKe hOKx hOKi hRs hRe hRx hRi
      nper 0 0 { stream := evtWriteFrom p 0 nper }
      (logIf false "loading evt package file..." ++ []) (by omega) rfl rfl rfl
      rfl (fun _ => rfl)
  have hload : evtLoad false registry rows cols nper (evtWriteFile p nper) =
      .ok ({ nevtop := p.nevtop, ipakcb := p.ipakcb, surf := stF.surf,
             evtr := stF.evtr, exdp := stF.exdp, ievt := stF.ievt,
             codes := stF.codes }, lgF) := by
    unfold evtLoad evtWriteFile
    dsimp only
    rw [show skipComments (Line.comment
        " EVT package for MODFLOW, generated by Flopy." ::
        Line.txt [Fld.num p.nevtop, Fld.num p.ipakcb] ::
        evtWriteFrom p 0 nper) =
      (Line.txt [Fld.num p.nevtop, Fld.num p.ipakcb], evtWriteFrom p 0 nper)
      from by unfold skipComments skipComments; rfl]
    simp only [isParameterLine, Line.toks, getNum,
      List.getElem?_cons_zero, List.getElem?_cons_succ, Bool.false_eq_true,
      if_false, ite_false]
    rw [if_neg (by decide : ¬ ((0 : ℤ) < 0))]
    dsimp only
    rw [hloop]
  have hlenS : nsS.length = nper := hmS.1
  have hlenE : nsE.length = nper := hmE.1
  have hlenX : nsX.length = nper := hmX.1
  refine ⟨_, lgF, hload, rfl, rfl, ?_, ?_, ?_, ?_, ?_, ?_, ?_, ?_⟩
  · dsimp only
    rw [haS]
    simp [hlenS]
  · intro k hk
    dsimp only
    rw [haS, List.nil_append]
    have := hmS.2 k (by omega)
    simpa using this
  · dsimp only
    rw [haE]
    simp [hlenE]
  · intro k hk
    dsimp only
    rw [haE, List.nil_append]
    have := hmE.2 k (by omega)
    simpa using this
  · dsimp only
    rw [haX]
    simp [hlenX]
  · intro k hk
    dsimp only
    rw [haX, List.nil_append]
    have := hmX.2 k (by omega)
    simpa using this
  · intro h2
    obtain ⟨nsI, haI, hmI⟩ := hI2 h2
    constructor
    · dsimp only
      rw [haI]
      simp [hmI.1]
    · intro k hk
      dsimp only
      rw [haI, List.nil_append]
      have := hmI.2 k (by omega)
      simpa using this
  · intro h2
    dsimp only
    rw [hIn h2]

/-- Witness for C3: the round trip at the concrete package `rtP` over a
1×2 grid and two stress periods. -/
theorem evt_round_trip_witness :
    ∃ rec lg, evtLoad false rtReg 1 2 2 (evtWriteFile rtP 2) = .ok (rec, lg) ∧
      rec.nevtop = rtP.nevtop ∧ rec.ipakcb = rtP.ipakcb ∧
      rec.surf.length = 2 ∧
      (∀ k, k < 2 →
        odata (rec.surf.getD k none) = odata (resolveTl rtP.surf k)) ∧
      rec.evtr.length = 2 ∧
      (∀ k, k < 2 →
        odata (rec.evtr.getD k none) = odata (resolveTl rtP.evtr k)) ∧
      rec.exdp.length = 2 ∧
      (∀ k, k < 2 →
        odata (rec.exdp.getD k none) = odata (resolveTl rtP.exdp k)) ∧
      (rtP.nevtop = 2 → rec.ievt.length = 2 ∧
        (∀ k, k < 2 →
          odata (rec.ievt.getD k none) = odata (resolveTl rtP.ievt k))) ∧
      (rtP.nevtop ≠ 2 → rec.ievt = []) :=
  evt_round_trip rtP rtReg 1 2 2 (by decide) (by decide) (by decide)
    (fun _ => by decide) (by decide) (by decide) (by decide)
    (fun _ => by decide)

end Flopy
